import Mathlib

/-!
Verification development for the DiceConfigManager repository
(src/DiceConfigManager.h, src/DiceConfigManager.cpp).

The C++ code is shallowly embedded: text is `List Char`, machine integers
are `Nat`/`Int` with explicit `% 2^w` where overflow matters, the 32-bit
`float tumbleConstant` is carried as an exact rational for its arithmetic
(comparisons, parsing, two-decimal printing).  The raw in-memory byte image
of the `DiceConfig` struct, which `calculateChecksum` XOR-folds through a
`uint8_t*` cast, is spelled out field by field following the ESP32 target
ABI (little-endian, `alignof(uint16_t) = 2`, `alignof(float) =
alignof(uint32_t) = 4`): `diceId` at offsets 0..15, the three MACs at
16..33, the five 16-bit colors at 34..43, `rssiLimit` at 44, the three
`bool`s at 45..47, `randomSwitchPoint` at 48, three alignment padding
bytes at 49..51, `tumbleConstant` at 52..55, `deepSleepTimeout` at 56..59,
`checksum` at 60, and three tail padding bytes at 61..63, so
`sizeof(DiceConfig) = 64`.  Padding bytes (never written by the program)
are modelled as 0.  The 4 bytes of the float are supplied by an explicit
encoding function `enc : Rat → List Nat` that every checksum definition
takes as a parameter; the theorems below either hold for every `enc` or
are evaluated at `enc25`, which maps 2.5 to its IEEE-754 binary32
little-endian bytes (the only float value those concrete records hold).
-/

namespace DiceCM

/-- C `isspace` on the ASCII characters the files can contain. -/
def csIsSpace (c : Char) : Bool :=
  c = ' ' || c = '\t' || c = '\n' || c = '\x0b' || c = '\x0c' || c = '\r'

/-- C `isdigit`. -/
def csIsDigit (c : Char) : Bool := '0' ≤ c && c ≤ '9'

/-- C `isxdigit`. -/
def csIsHexDigit (c : Char) : Bool :=
  csIsDigit c || ('a' ≤ c && c ≤ 'f') || ('A' ≤ c && c ≤ 'F')

/-- Octal digit (strtoul with base 0 parses a leading-`0` number in octal). -/
def csIsOctDigit (c : Char) : Bool := '0' ≤ c && c ≤ '7'

/-- Value of a decimal digit character. -/
def digVal (c : Char) : Nat := c.toNat - 48

/-- Value of a hexadecimal digit character (either case). -/
def hexDigVal (c : Char) : Nat :=
  if csIsDigit c then c.toNat - 48
  else if 'a' ≤ c && c ≤ 'f' then c.toNat - 87
  else if 'A' ≤ c && c ≤ 'F' then c.toNat - 55
  else 0

/-- C `tolower` on ASCII. -/
def csToLower (c : Char) : Char :=
  if 'A' ≤ c && c ≤ 'Z' then Char.ofNat (c.toNat + 32) else c

/-- `DiceConfigManager::trim`: strip leading and trailing `isspace`
characters (the separate trailing-`'\r'` strip in `load` removes a
character `trim` would remove as well, so it is subsumed here). -/
def trim (l : List Char) : List Char :=
  ((l.dropWhile csIsSpace).reverse.dropWhile csIsSpace).reverse

/-- `strchr(line, '=')` followed by splitting at that character: the text
before the first `'='` and the text after it, or `none` when the line has
no `'='`. -/
def splitEq : List Char → Option (List Char × List Char)
  | [] => none
  | c :: rest =>
    if c = '=' then some ([], rest)
    else match splitEq rest with
      | some (k, v) => some (c :: k, v)
      | none => none

/-- The `DiceConfig` struct of DiceConfigManager.h.  `diceId` holds the
C-string contents of the `char diceId[16]` array (at most 15 characters
before the terminator); the MAC arrays are byte lists of length 6; the
fixed-width unsigned fields are `Nat` kept below their width by every
writer; `rssiLimit` is the value of the `int8_t`; `tumbleConstant` is the
float's numeric value as an exact rational. -/
structure DiceConfig where
  diceId : List Char
  deviceA_mac : List Nat
  deviceB1_mac : List Nat
  deviceB2_mac : List Nat
  x_background : Nat
  y_background : Nat
  z_background : Nat
  entang_ab1_color : Nat
  entang_ab2_color : Nat
  rssiLimit : Int
  isSMD : Bool
  isNano : Bool
  alwaysSeven : Bool
  randomSwitchPoint : Nat
  tumbleConstant : Rat
  deepSleepTimeout : Nat
  checksum : Nat
  deriving DecidableEq, Repr

/-- `DiceConfigManager::initDefaultConfig` (also `setDefaults`). -/
def initDefaultConfig : DiceConfig where
  diceId := "DEFAULT".data
  deviceA_mac := [0, 0, 0, 0, 0, 0]
  deviceB1_mac := [0, 0, 0, 0, 0, 0]
  deviceB2_mac := [0, 0, 0, 0, 0, 0]
  x_background := 0xF800
  y_background := 0x07E0
  z_background := 0x001F
  entang_ab1_color := 0xFFFF
  entang_ab2_color := 0x0000
  rssiLimit := -70
  isSMD := false
  isNano := false
  alwaysSeven := false
  randomSwitchPoint := 50
  tumbleConstant := 5 / 2
  deepSleepTimeout := 300000
  checksum := 0

/-- Little-endian bytes of a 16-bit value. -/
def le16 (v : Nat) : List Nat := [v % 256, v / 256 % 256]

/-- Little-endian bytes of a 32-bit value. -/
def le32 (v : Nat) : List Nat :=
  [v % 256, v / 256 % 256, v / 65536 % 256, v / 16777216 % 256]

/-- The byte a `bool` field occupies. -/
def boolByte (b : Bool) : Nat := if b then 1 else 0

/-- The byte of the `int8_t` field (two's complement). -/
def int8Byte (i : Int) : Nat := (i % 256).toNat

/-- The 16 bytes of the `char diceId[16]` array: the string's characters
followed by the terminator and trailing zeros (a `strncpy` writer zero
fills; the `strcpy` in `initDefaultConfig` leaves the tail of the array
unwritten, modelled as 0 like all bytes the program never assigns). -/
def diceIdBytes (s : List Char) : List Nat :=
  (s.take 15).map Char.toNat ++ List.replicate (16 - min s.length 15) 0

/-- The 64-byte in-memory image of a `DiceConfig` on the ESP32 target,
offsets as in the header comment of this file; `enc` supplies the 4 bytes
of the float and padding bytes are 0. -/
def structBytes (enc : Rat → List Nat) (c : DiceConfig) : List Nat :=
  diceIdBytes c.diceId
    ++ c.deviceA_mac ++ c.deviceB1_mac ++ c.deviceB2_mac
    ++ le16 c.x_background ++ le16 c.y_background ++ le16 c.z_background
    ++ le16 c.entang_ab1_color ++ le16 c.entang_ab2_color
    ++ [int8Byte c.rssiLimit,
        boolByte c.isSMD, boolByte c.isNano, boolByte c.alwaysSeven,
        c.randomSwitchPoint % 256]
    ++ [0, 0, 0]
    ++ enc c.tumbleConstant
    ++ le32 c.deepSleepTimeout
    ++ [c.checksum % 256]
    ++ [0, 0, 0]

/-- XOR fold of a byte list (`sum ^= ptr[i]`). -/
def xorFold (l : List Nat) : Nat := l.foldl (fun a b => a ^^^ b) 0

/-- The value `DiceConfigManager::calculateChecksum` computes: the XOR of
the struct's bytes at offsets `0 .. sizeof(DiceConfig)-2 = 0 .. 62`
(the loop runs `i < sizeof(DiceConfig) - 1`). -/
def calcChecksumVal (enc : Rat → List Nat) (c : DiceConfig) : Nat :=
  xorFold ((structBytes enc c).take 63)

/-- `DiceConfigManager::calculateChecksum`: stores the computed value into
the record's checksum field. -/
def calculateChecksum (enc : Rat → List Nat) (c : DiceConfig) : DiceConfig :=
  { c with checksum := calcChecksumVal enc c }

/-- `DiceConfigManager::validateChecksum`: recomputes over a copy and
compares with the stored checksum. -/
def validateChecksum (enc : Rat → List Nat) (c : DiceConfig) : Bool :=
  calcChecksumVal enc c == c.checksum

/-- Modelled from the spec (section 4.2): "Treats every field of the record
except the checksum field itself as an ordered byte sequence (fixed field
order as declared in section 3) and folds them with bitwise XOR into a
single byte."  This is the spec-side checksum that claim C2 asserts
`calculateChecksum` computes; no struct padding and no checksum byte. -/
def specChecksumVal (enc : Rat → List Nat) (c : DiceConfig) : Nat :=
  xorFold
    (diceIdBytes c.diceId
      ++ c.deviceA_mac ++ c.deviceB1_mac ++ c.deviceB2_mac
      ++ le16 c.x_background ++ le16 c.y_background ++ le16 c.z_background
      ++ le16 c.entang_ab1_color ++ le16 c.entang_ab2_color
      ++ [int8Byte c.rssiLimit,
          boolByte c.isSMD, boolByte c.isNano, boolByte c.alwaysSeven,
          c.randomSwitchPoint % 256]
      ++ enc c.tumbleConstant
      ++ le32 c.deepSleepTimeout)

/-- A concrete float-byte encoding for evaluating records whose only float
value is 2.5: the IEEE-754 binary32 little-endian bytes of 2.5f are
`00 00 20 40` (bit pattern 0x40200000).  Every concrete record a theorem
below applies this encoding to holds tumbleConstant = 2.5, so the encoding
is written as the constant function returning those four bytes (`Rat`
arithmetic is kept out of kernel evaluation). -/
def enc25 (_ : Rat) : List Nat := [0x00, 0x00, 0x20, 0x40]

/-! ## The decode side of the Text Codec (`load`'s line parser) -/

/-- Strip an optional single `'+'` or `'-'`; `true` means negative. -/
def stripSign : List Char → Bool × List Char
  | [] => (false, [])
  | c :: r => if c = '-' then (true, r) else if c = '+' then (false, r) else (false, c :: r)

/-- Value of a decimal digit string (most significant first). -/
def decVal (l : List Char) : Nat := l.foldl (fun a c => a * 10 + digVal c) 0

/-- Value of an octal digit string (most significant first). -/
def octVal (l : List Char) : Nat := l.foldl (fun a c => a * 8 + digVal c) 0

/-- Value of a hexadecimal digit string (most significant first). -/
def hexVal (l : List Char) : Nat := l.foldl (fun a c => a * 16 + hexDigVal c) 0

/-- C `atoi`: skip whitespace, optional sign, longest decimal-digit run; no
digits parse as 0.  (`atoi` overflow is undefined behaviour in C; the
callers immediately narrow with a cast, modelled at the call sites.) -/
def atoiInt (l : List Char) : Int :=
  let (neg, l2) := stripSign (l.dropWhile csIsSpace)
  let v : Int := decVal (l2.takeWhile csIsDigit)
  if neg then -v else v

/-- C `strtoul(value, NULL, 0)` on the 32-bit `unsigned long` of the
target: skip whitespace, optional sign (a negative value wraps modulo
2^32), then base auto-detection: `0x`/`0X` followed by a hex digit reads
hexadecimal, a leading `0` reads octal, anything else decimal; no digits
parse as 0.  (The `ERANGE` clamp to `ULONG_MAX` for out-of-range literals
is not modelled; the values the claims touch are in range.) -/
def strtoul0 (l : List Char) : Nat :=
  let (neg, l2) := stripSign (l.dropWhile csIsSpace)
  let mag : Nat :=
    if l2.head? = some '0' then
      if l2.tail.head? = some 'x' ∨ l2.tail.head? = some 'X' then
        if ((l2.tail.tail.head?.map csIsHexDigit).getD false) then
          hexVal (l2.tail.tail.takeWhile csIsHexDigit)
        else 0
      else octVal (l2.takeWhile csIsOctDigit)
    else decVal (l2.takeWhile csIsDigit)
  let m := mag % 4294967296
  if neg then (4294967296 - m) % 4294967296 else m

/-- The value classes a C99 `strtod` call can produce: a finite value
(modelled as the exact rational the decimal or hex-float text denotes),
positive or negative infinity, or NaN. -/
inductive StrtodResult where
  | finite (q : Rat) : StrtodResult
  | posInf : StrtodResult
  | negInf : StrtodResult
  | nan : StrtodResult
deriving DecidableEq, Repr

/-- The decimal branch of `strtod`, after whitespace and sign handling:
digits with an optional fractional part (at least one digit on either
side of the point), optional exponent applied only when at least one
exponent digit follows; no mantissa digits parse as 0. -/
def atofDecimal (neg : Bool) (l2 : List Char) : Rat :=
  let ip := l2.takeWhile csIsDigit
  let r2 := l2.dropWhile csIsDigit
  let fp := if r2.head? = some '.' then r2.tail.takeWhile csIsDigit else []
  let r3 := if r2.head? = some '.' then r2.tail.dropWhile csIsDigit else r2
  if ip = [] ∧ fp = [] then 0
  else
    let mant : Rat := (decVal ip : Rat) + (decVal fp : Rat) / ((10 : Rat) ^ fp.length)
    let ex : Int :=
      if r3.head? = some 'e' ∨ r3.head? = some 'E' then
        let (eneg, r4) := stripSign r3.tail
        let ed := r4.takeWhile csIsDigit
        if ed = [] then 0 else if eneg then -(decVal ed : Int) else (decVal ed : Int)
      else 0
    let m := mant * (10 : Rat) ^ ex
    if neg then -m else m

/-- The hexadecimal branch of `strtod`, after the `0x`/`0X` prefix: hex
digits with an optional fractional part, optional binary exponent
(`p`/`P`, decimal digits) applied only when at least one exponent digit
follows. -/
def atofHex (neg : Bool) (l2 : List Char) : Rat :=
  let ih := l2.takeWhile csIsHexDigit
  let r2 := l2.dropWhile csIsHexDigit
  let fh := if r2.head? = some '.' then r2.tail.takeWhile csIsHexDigit else []
  let r3 := if r2.head? = some '.' then r2.tail.dropWhile csIsHexDigit else r2
  let mant : Rat := (hexVal ih : Rat) + (hexVal fh : Rat) / ((16 : Rat) ^ fh.length)
  let ex : Int :=
    if r3.head? = some 'p' ∨ r3.head? = some 'P' then
      let (eneg, r4) := stripSign r3.tail
      let ed := r4.takeWhile csIsDigit
      if ed = [] then 0 else if eneg then -(decVal ed : Int) else (decVal ed : Int)
    else 0
  let m := mant * (2 : Rat) ^ ex
  if neg then -m else m

/-- C `atof` (C99 `strtod`): skip whitespace and an optional sign, then
recognize a case-insensitive `inf`/`infinity` keyword as a signed
infinity, a case-insensitive `nan`/`nan(...)` keyword as NaN, a
`0x`/`0X` prefix followed by a hex mantissa as a hex-float, and
otherwise a decimal number.  Only the resulting value is modelled, so a
three-character keyword test suffices: `inf` and `infinity` (and any
trailing junk, which `strtod` leaves unconsumed) denote the same value. -/
def atofResult (l : List Char) : StrtodResult :=
  let (neg, l2) := stripSign (l.dropWhile csIsSpace)
  if (l2.take 3).map csToLower = "inf".data then
    if neg then StrtodResult.negInf else StrtodResult.posInf
  else if (l2.take 3).map csToLower = "nan".data then
    StrtodResult.nan
  else if l2.head? = some '0' ∧ (l2.tail.head? = some 'x' ∨ l2.tail.head? = some 'X')
      ∧ (((l2.tail.tail.head?.map csIsHexDigit).getD false)
         ∨ (l2.tail.tail.head? = some '.'
            ∧ ((l2.tail.tail.tail.head?.map csIsHexDigit).getD false))) then
    StrtodResult.finite (atofHex neg l2.tail.tail)
  else
    StrtodResult.finite (atofDecimal neg l2)

/-- The projection of `atofResult` into the record's rational float
model: the finite value, with the non-finite classes collapsed to 0
(`tumbleConstant` is modelled as an exact rational, which has no
infinities or NaN; `atofResult` keeps those classes observable). -/
def atofRat (l : List Char) : Rat :=
  match atofResult l with
  | StrtodResult.finite q => q
  | _ => 0

/-- `DiceConfigManager::parseBool`: `strcasecmp(str, "true") == 0 ||
strcmp(str, "1") == 0`. -/
def parseBool (l : List Char) : Bool :=
  l.map csToLower == "true".data || l == "1".data

/-- One `%x` conversion of `sscanf`: skip whitespace, optional sign,
optional `0x`/`0X` prefix when a hex digit follows, then the longest hex
digit run; `none` when no digits are read (conversion failure). -/
def scanHexInt (l : List Char) : Option (Int × List Char) :=
  let (neg, l2) := stripSign (l.dropWhile csIsSpace)
  let l3 :=
    if l2.head? = some '0' ∧ (l2.tail.head? = some 'x' ∨ l2.tail.head? = some 'X')
        ∧ ((l2.tail.tail.head?.map csIsHexDigit).getD false) then
      l2.tail.tail
    else l2
  if ((l3.head?.map csIsHexDigit).getD false) then
    some ((if neg then -(hexVal (l3.takeWhile csIsHexDigit) : Int)
           else (hexVal (l3.takeWhile csIsHexDigit) : Int)),
          l3.dropWhile csIsHexDigit)
  else none

/-- After the first `%x` of `parseMacAddress`'s format, `n` more rounds of
a literal `':'` directly followed by a `%x` conversion. -/
def scanMacRest : Nat → List Char → Option (List Int × List Char)
  | 0, l => some ([], l)
  | n + 1, l =>
    match l with
    | ':' :: r =>
      match scanHexInt r with
      | some (v, r2) =>
        match scanMacRest n r2 with
        | some (vs, r3) => some (v :: vs, r3)
        | none => none
      | none => none
    | _ => none

/-- `DiceConfigManager::parseMacAddress`: `sscanf(str,
"%x:%x:%x:%x:%x:%x", ...) == 6`, each value narrowed to `uint8_t`;
`none` models the `false` return (the caller leaves the field untouched). -/
def parseMacAddress (l : List Char) : Option (List Nat) :=
  match scanHexInt l with
  | some (v, r) =>
    match scanMacRest 5 r with
    | some (vs, _) => some ((v :: vs).map fun i => (i % 256).toNat)
    | none => none
  | none => none

/-- The key dispatch of `load`'s parse loop (lines 114-174 of the source):
each recognized key assigns its field from the value text, with the
narrowing cast the assignment performs; an unrecognized key changes
nothing. -/
def applyKV (c : DiceConfig) (k v : List Char) : DiceConfig :=
  if k = "diceId".data then { c with diceId := v.take 15 }
  else if k = "deviceA_mac".data then
    match parseMacAddress v with
    | some m => { c with deviceA_mac := m }
    | none => c
  else if k = "deviceB1_mac".data then
    match parseMacAddress v with
    | some m => { c with deviceB1_mac := m }
    | none => c
  else if k = "deviceB2_mac".data then
    match parseMacAddress v with
    | some m => { c with deviceB2_mac := m }
    | none => c
  else if k = "x_background".data then { c with x_background := strtoul0 v % 65536 }
  else if k = "y_background".data then { c with y_background := strtoul0 v % 65536 }
  else if k = "z_background".data then { c with z_background := strtoul0 v % 65536 }
  else if k = "entang_ab1_color".data then { c with entang_ab1_color := strtoul0 v % 65536 }
  else if k = "entang_ab2_color".data then { c with entang_ab2_color := strtoul0 v % 65536 }
  else if k = "rssiLimit".data then
    { c with rssiLimit := (fun m => if 128 ≤ m then m - 256 else m) (atoiInt v % 256) }
  else if k = "isSMD".data then { c with isSMD := parseBool v }
  else if k = "isNano".data then { c with isNano := parseBool v }
  else if k = "alwaysSeven".data then { c with alwaysSeven := parseBool v }
  else if k = "randomSwitchPoint".data then
    { c with randomSwitchPoint := (atoiInt v % 256).toNat }
  else if k = "tumbleConstant".data then { c with tumbleConstant := atofRat v }
  else if k = "deepSleepTimeout".data then { c with deepSleepTimeout := strtoul0 v }
  else if k = "checksum".data then { c with checksum := (atoiInt v % 256).toNat }
  else c

/-- One iteration of `load`'s line loop: trim, skip empty and comment
lines, split at the first `'='`, skip separator-less lines, trim key and
value, dispatch. -/
def applyLine (c : DiceConfig) (l : List Char) : DiceConfig :=
  match trim l with
  | [] => c
  | h :: t =>
    if h = '#' then c
    else
      match splitEq (h :: t) with
      | none => c
      | some (k, v) => applyKV c (trim k) (trim v)

/-- The whole parse loop of `load` over the file's lines, starting from
the record's prior contents (`_config` is updated in place, so a key the
file does not mention keeps its prior value).  The file content is
modelled as its list of `'\n'`-separated lines; the 127-byte read buffer
(which re-splits longer physical lines) is immaterial to the claims
settled here. -/
def decodeLines (c : DiceConfig) (lines : List (List Char)) : DiceConfig :=
  lines.foldl applyLine c

/-- `DiceConfigManager::load(filename)` after the file opened: parse every
line into the record, then fail exactly when the (decoded) checksum is
non-zero and `validateChecksum` rejects; the record keeps the decoded
fields either way. -/
def load (enc : Rat → List Nat) (c : DiceConfig) (lines : List (List Char)) :
    Bool × DiceConfig :=
  if (decodeLines c lines).checksum ≠ 0 ∧ ¬(validateChecksum enc (decodeLines c lines) = true)
  then (false, decodeLines c lines)
  else (true, decodeLines c lines)

/-- `DiceConfigManager::validate`: `valid` starts `true` and each failing
check clears it, so the result is the conjunction of the four negated
failure conditions (empty diceId, `randomSwitchPoint > 100`,
`tumbleConstant <= 0`, and non-zero checksum rejected by
`validateChecksum`). -/
def validate (enc : Rat → List Nat) (c : DiceConfig) : Bool :=
  (!(c.diceId.length == 0)) && (!(decide (100 < c.randomSwitchPoint)))
    && (!(decide (c.tumbleConstant ≤ 0)))
    && (!((c.checksum != 0) && (!(validateChecksum enc c))))

/-- The 17 keys `load`'s dispatch recognizes. -/
def recognizedKeys : List (List Char) :=
  [ "diceId".data, "deviceA_mac".data, "deviceB1_mac".data, "deviceB2_mac".data,
    "x_background".data, "y_background".data, "z_background".data,
    "entang_ab1_color".data, "entang_ab2_color".data, "rssiLimit".data,
    "isSMD".data, "isNano".data, "alwaysSeven".data, "randomSwitchPoint".data,
    "tumbleConstant".data, "deepSleepTimeout".data, "checksum".data ]

/-- Whether a line reaches `load`'s dispatch with a recognized key (it is
not blank, not a comment, has an `'='`, and its trimmed key is one of the
17). -/
def lineActive (l : List Char) : Bool :=
  match trim l with
  | [] => false
  | h :: t =>
    if h = '#' then false
    else
      match splitEq (h :: t) with
      | none => false
      | some (k, _) => recognizedKeys.contains (trim k)

/-- The text a numeric parser sees after its whitespace skip and optional
sign. -/
def afterSign (l : List Char) : List Char := (stripSign (l.dropWhile csIsSpace)).2

/-- Whether `atoi`/`strtoul` find at least one digit to consume. -/
def intNumericStart (l : List Char) : Bool :=
  ((afterSign l).head?.map csIsDigit).getD false

/-- Whether `atof` (`strtod`) finds anything to consume after the sign:
a mantissa digit (directly or after a leading decimal point), or the
start of an `inf`/`nan` keyword (a hex-float prefix begins with the
digit `0`, so it is already covered by the digit test). -/
def floatNumericStart (l : List Char) : Bool :=
  (if (afterSign l).head? = some '.' then
    (((afterSign l).tail.head?.map csIsDigit).getD false)
  else (((afterSign l).head?.map csIsDigit).getD false))
  || ((afterSign l).take 3).map csToLower == "inf".data
  || ((afterSign l).take 3).map csToLower == "nan".data

/-- A directory entry name of 70 characters ending in `_config.txt`,
longer than the 64-byte path buffers of `findConfigFile`/`begin`. -/
def longName : List Char := List.replicate 59 'x' ++ "_config.txt".data

/-- A prior record differing from the defaults only in `diceId`, for
exhibiting `load`'s dependence on the pre-call record. -/
def c8prior : DiceConfig := { initDefaultConfig with diceId := "KEEP".data }

/-- A valid record (checksum 0, populated fields) whose `diceId` carries a
leading space, for exhibiting the encode/decode round-trip loss. -/
def rBadId : DiceConfig :=
  { initDefaultConfig with
      diceId := " A".data
      deviceA_mac := [1, 2, 3, 4, 5, 6]
      deviceB1_mac := [7, 8, 9, 10, 11, 12]
      deviceB2_mac := [13, 14, 15, 16, 17, 18] }

/-! ## The encode side of the Text Codec (`save`'s line emitter) -/

/-- The character of a decimal digit. -/
def digitChar (d : Nat) : Char := Char.ofNat (48 + d)

/-- `%u`/`%d` digit emission, least significant digit first; the fuel is
an upper bound on the digit count (`n` itself always suffices). -/
def natDigitsAux : Nat → Nat → List Char
  | 0, _ => []
  | fuel + 1, n => if n = 0 then [] else digitChar (n % 10) :: natDigitsAux fuel (n / 10)

/-- Decimal rendering of an unsigned value (`printf "%u"`). -/
def natRepr (n : Nat) : List Char :=
  if n = 0 then ['0'] else (natDigitsAux n n).reverse

/-- Decimal rendering of a signed value (`printf "%d"`). -/
def intRepr (i : Int) : List Char :=
  if i < 0 then '-' :: natRepr (-i).toNat else natRepr i.toNat

/-- The character of a hexadecimal digit, uppercase (`%02X`). -/
def hexDigitChar (d : Nat) : Char :=
  Char.ofNat (if d < 10 then 48 + d else 55 + d)

/-- `%02X` of a byte. -/
def hex2 (b : Nat) : List Char := [hexDigitChar (b / 16 % 16), hexDigitChar (b % 16)]

/-- `DiceConfigManager::macToString`:
`"%02X:%02X:%02X:%02X:%02X:%02X"` over the six bytes. -/
def macToString (m : List Nat) : List Char :=
  hex2 (m.getD 0 0) ++ ':' :: hex2 (m.getD 1 0) ++ ':' :: hex2 (m.getD 2 0)
    ++ ':' :: hex2 (m.getD 3 0) ++ ':' :: hex2 (m.getD 4 0) ++ ':' :: hex2 (m.getD 5 0)

/-- The `"true"`/`"false"` literals `save` emits for a bool field. -/
def boolStr (b : Bool) : List Char := if b then "true".data else "false".data

/-- Two-digit rendering of a value below 100 (the fraction part of
`%.2f`). -/
def pad2 (k : Nat) : List Char := if k < 10 then '0' :: natRepr k else natRepr k

/-- Decimal point rendering of `m/100` with exactly two fraction digits. -/
def fmt2n (m : Nat) : List Char := natRepr (m / 100) ++ '.' :: pad2 (m % 100)

/-- `printf "%.2f"` on the (rational-modelled) float value: round the
value times 100 to the nearest integer and print with two fraction
digits.  (The binary float's exact tie-breaking is absorbed into the
rational model's `round`.) -/
def fmt2 (q : Rat) : List Char :=
  if q < 0 then '-' :: fmt2n (round (-q * 100)).toNat
  else fmt2n (round (q * 100)).toNat

/-- The value `%.2f` formatting leaves: the nearest two-decimal rational. -/
def round2 (q : Rat) : Rat :=
  if q < 0 then -(((round (-q * 100) : Int) : Rat) / 100)
  else ((round (q * 100) : Int) : Rat) / 100

/-- The 33 lines `DiceConfigManager::save` writes, in order (header
comments and blank lines included; `println`'s `"\r\n"` terminator versus
`printf`'s `"\n"` is immaterial because `load` strips the `'\r'`). -/
def encodeLines (c : DiceConfig) : List (List Char) :=
  [ "# Dice Configuration File".data,
    "# Auto-generated - Edit with care".data,
    [],
    "# Device Identification".data,
    "diceId=".data ++ c.diceId,
    [],
    "# Device MAC Addresses (format: AA:BB:CC:DD:EE:FF)".data,
    "deviceA_mac=".data ++ macToString c.deviceA_mac,
    "deviceB1_mac=".data ++ macToString c.deviceB1_mac,
    "deviceB2_mac=".data ++ macToString c.deviceB2_mac,
    [],
    "# Display Colors (16-bit RGB565 format)".data,
    "x_background=".data ++ natRepr c.x_background,
    "y_background=".data ++ natRepr c.y_background,
    "z_background=".data ++ natRepr c.z_background,
    "entang_ab1_color=".data ++ natRepr c.entang_ab1_color,
    "entang_ab2_color=".data ++ natRepr c.entang_ab2_color,
    [],
    "# RSSI Settings".data,
    "rssiLimit=".data ++ intRepr c.rssiLimit,
    [],
    "# Hardware Configuration".data,
    "isSMD=".data ++ boolStr c.isSMD,
    "isNano=".data ++ boolStr c.isNano,
    "alwaysSeven=".data ++ boolStr c.alwaysSeven,
    [],
    "# Operational Parameters".data,
    "randomSwitchPoint=".data ++ natRepr c.randomSwitchPoint,
    "tumbleConstant=".data ++ fmt2 c.tumbleConstant,
    "deepSleepTimeout=".data ++ natRepr c.deepSleepTimeout,
    [],
    "# Checksum (auto-calculated)".data,
    "checksum=".data ++ natRepr c.checksum ]

/-- `DiceConfigManager::save(filename)`: recompute the checksum into the
record first, then open the destination (`openOk`); on failure report
`false` with the record already updated, on success emit the lines.
Returns (result, record after the call, lines written). -/
def save (enc : Rat → List Nat) (openOk : Bool) (c : DiceConfig) :
    Bool × DiceConfig × List (List Char) :=
  let c2 := calculateChecksum enc c
  if openOk then (true, c2, encodeLines c2) else (false, c2, [])

/-! ## Discovery Scanner and `begin` -/

/-- Outcome of `findConfigFile`, separating the two `setError` branches. -/
inductive FindRes where
  | found (path : List Char)
  | notFound
  | ambiguous
  deriving DecidableEq, Repr

/-- `filename.endsWith("_config.txt")`. -/
def nameMatches (name : List Char) : Bool :=
  "_config.txt".data.isSuffixOf name

/-- The directory-walk loop of `findConfigFile`: count the matches and
keep the first one, truncated by `strncpy` into the 64-byte `firstMatch`
buffer. -/
def fcfLoop : List (List Char) → Nat → List Char → Nat × List Char
  | [], cnt, fm => (cnt, fm)
  | name :: rest, cnt, fm =>
    if nameMatches name then
      fcfLoop rest (cnt + 1) (if cnt + 1 = 1 then name.take 63 else fm)
    else fcfLoop rest cnt fm

/-- The path normalization at the single-match exit of `findConfigFile`:
a name not starting with `'/'` goes through `snprintf(foundPath, 64,
"/%s", firstMatch)` (so at most 62 of its characters fit after the
slash); a name already starting with `'/'` is copied with
`strncpy(foundPath, firstMatch, 63)`. -/
def normalizePath (fm : List Char) : List Char :=
  if fm.head? = some '/' then fm.take 63 else '/' :: fm.take 62

/-- `DiceConfigManager::findConfigFile` over the names the root-directory
walk yields: exactly one `*_config.txt` match returns its normalized
path, zero matches is the NotFound error, two or more the Ambiguous
error. -/
def findConfigFile (entries : List (List Char)) : FindRes :=
  let r := fcfLoop entries 0 []
  if r.1 = 1 then FindRes.found (normalizePath r.2)
  else if r.1 = 0 then FindRes.notFound
  else FindRes.ambiguous

/-- The Discovery Scanner as the spec states it (section 4.4), amended
with the path buffer truncation: select the entries ending in
`_config.txt`; exactly one gives its (normalized, truncated) path, zero
NotFound, several Ambiguous. -/
def findUniqueSpec (entries : List (List Char)) : FindRes :=
  match entries.filter nameMatches with
  | [] => FindRes.notFound
  | [n] => FindRes.found (normalizePath (n.take 63))
  | _ => FindRes.ambiguous

/-- The tail of `begin` once a path is established: open and load, on any
load failure fall back to the defaults, in both cases report success.
Returns (result, record, `_configPath`). -/
def beginLoad (enc : Rat → List Nat) (files : List Char → Option (List (List Char)))
    (c : DiceConfig) (path : List Char) : Bool × DiceConfig × List Char :=
  match files path with
  | none => (true, initDefaultConfig, path)
  | some lines =>
    let r := load enc c lines
    if r.1 then (true, r.2, path) else (true, initDefaultConfig, path)

/-- `DiceConfigManager::begin(configPath, formatOnFail)`: mount the
backing store (`mountOk`; failure is fatal), then either use the explicit
path (truncated by `strncpy` into the 64-byte `_configPath`) or
auto-discover; discovery failure falls back to the default path and the
default record, reporting success.  `files` is the backing store's
open-for-read: the lines of the file at a path, or `none` when the open
fails. -/
def beginM (enc : Rat → List Nat) (mountOk : Bool) (entries : List (List Char))
    (files : List Char → Option (List (List Char))) (c : DiceConfig)
    (ppath : List Char) (configPath : Option (List Char)) :
    Bool × DiceConfig × List Char :=
  if mountOk then
    match configPath with
    | none =>
      match findConfigFile entries with
      | FindRes.found fp => beginLoad enc files c fp
      | _ => (true, initDefaultConfig, "/config.txt".data)
    | some p => beginLoad enc files c (p.take 63)
  else (false, c, ppath)

/-- C1: the claim states that for every record r, `validateChecksum`
succeeds after storing `calculateChecksum`'s value into the checksum
field.  The code violates this: because the checksum byte sits at offset
60 of the 64-byte struct (tail padding follows it), the XOR loop bounded
by `sizeof(DiceConfig) - 1` includes the checksum byte itself, so the
recomputation over the updated record differs from the stored value
whenever the XOR of the other fields' bytes is non-zero.  Evaluated at
the default record (diceId "DEFAULT", tumbleConstant 2.5, ...), the
round-trip check fails. -/
theorem c1_checksum_roundtrip_fails_on_default :
    validateChecksum enc25 (calculateChecksum enc25 initDefaultConfig) = false := by
  decide

/-- C2: the claim states `calculateChecksum` equals the XOR fold of every
field's bytes except the checksum field itself, in declared field order
(`specChecksumVal`).  The code violates this: its byte loop covers offsets
0..62 of the padded struct, which includes the stored checksum byte at
offset 60, so for a record whose stored checksum is 7 the two values
differ (they differ by XOR with 7). -/
theorem c2_compute_is_not_field_xor :
    calcChecksumVal enc25 { initDefaultConfig with checksum := 7 } ≠
      specChecksumVal enc25 { initDefaultConfig with checksum := 7 } := by
  decide

/-- Both exits of `beginLoad` report success. -/
theorem beginLoad_fst (enc : Rat → List Nat) (files : List Char → Option (List (List Char)))
    (c : DiceConfig) (path : List Char) : (beginLoad enc files c path).1 = true := by
  unfold beginLoad
  cases files path with
  | none => rfl
  | some lines => dsimp only; split <;> rfl

/-- C10: `save` stores the recomputed checksum into the in-memory record
before attempting to open the destination, so a failed open still leaves
the record's checksum field updated (save is not atomic on the in-memory
state), and the checksum field after any save equals the recomputed
value. -/
theorem c10_save_updates_checksum_before_open :
    ∀ (enc : Rat → List Nat) (c : DiceConfig),
      (save enc false c).1 = false ∧
      (save enc false c).2.1 = { c with checksum := calcChecksumVal enc c } ∧
      ∀ openOk, (save enc openOk c).2.1.checksum = calcChecksumVal enc c := by
  intro enc c
  have h2 : (save enc false c).2.1 = calculateChecksum enc c := rfl
  have h2t : (save enc true c).2.1 = calculateChecksum enc c := rfl
  have h3 : calculateChecksum enc c = { c with checksum := calcChecksumVal enc c } := rfl
  refine ⟨rfl, h2.trans h3, ?_⟩
  intro openOk
  cases openOk
  · rw [h2, h3]
  · rw [h2t, h3]

/-- C5: when the decoded checksum is non-zero and differs from the
recomputed one, `load` reports failure but the record keeps every decoded
field (the parse is not rolled back). -/
theorem c5_load_mismatch_keeps_fields (enc : Rat → List Nat) (c : DiceConfig)
    (lines : List (List Char))
    (h1 : (decodeLines c lines).checksum ≠ 0)
    (h2 : calcChecksumVal enc (decodeLines c lines) ≠ (decodeLines c lines).checksum) :
    (load enc c lines).1 = false ∧ (load enc c lines).2 = decodeLines c lines := by
  unfold load
  rw [if_pos]
  · exact ⟨rfl, rfl⟩
  · exact ⟨h1, by simp [validateChecksum, h2]⟩

/-- Witness for C5 at a concrete input: the file `checksum=7` decodes a
non-zero checksum that cannot match, so `load` fails and the decoded
checksum stays in the record. -/
theorem c5_witness :
    (load enc25 initDefaultConfig ["checksum=7".data]).1 = false ∧
      (load enc25 initDefaultConfig ["checksum=7".data]).2 =
        decodeLines initDefaultConfig ["checksum=7".data] :=
  c5_load_mismatch_keeps_fields enc25 initDefaultConfig ["checksum=7".data]
    (by decide) (by decide)

/-- A line `lineActive` rejects leaves the record unchanged. -/
theorem applyLine_inert (c : DiceConfig) (l : List Char)
    (h : lineActive l = false) : applyLine c l = c := by
  unfold lineActive at h
  unfold applyLine
  cases ht : trim l with
  | nil => rfl
  | cons hd tl =>
    rw [ht] at h
    dsimp only at h ⊢
    by_cases hh : hd = '#'
    · simp [hh]
    · rw [if_neg hh] at h ⊢
      cases hs : splitEq (hd :: tl) with
      | none => rfl
      | some kv =>
        rw [hs] at h
        obtain ⟨k, v⟩ := kv
        dsimp only at h ⊢
        have hmem : trim k ∉ recognizedKeys := by
          simp only [List.contains, List.elem_eq_mem, decide_eq_false_iff_not] at h
          exact h
        simp only [recognizedKeys, List.mem_cons, List.not_mem_nil, or_false,
          not_or] at hmem
        obtain ⟨n1, n2, n3, n4, n5, n6, n7, n8, n9, n10, n11, n12, n13, n14,
          n15, n16, n17⟩ := hmem
        simp [applyKV, n1, n2, n3, n4, n5, n6, n7, n8, n9, n10, n11, n12, n13,
          n14, n15, n16, n17]

/-- C8 counterexample: the claim says a successful `load` replaces all
fields independently of the record's prior contents.  With a file that
contains no recognized `key=value` line (here a single comment line),
`load` succeeds from two different prior records and returns records that
still differ in `diceId`: the decoded result is not independent of the
prior state. -/
theorem c8_counterexample :
    (load enc25 initDefaultConfig ["# note".data]).1 = true ∧
      (load enc25 c8prior ["# note".data]).1 = true ∧
      (load enc25 initDefaultConfig ["# note".data]).2.diceId ≠
        (load enc25 c8prior ["# note".data]).2.diceId := by
  decide

/-- C8 amended: `load` assigns only the fields whose keys appear in the
file; when no line carries a recognized key, the record after a (then
necessarily successful for checksum-0 priors) `load` equals the prior
record, so the result depends on the pre-call state. -/
theorem c8_load_keeps_unmentioned_fields (enc : Rat → List Nat) (c : DiceConfig)
    (lines : List (List Char)) (h : ∀ l ∈ lines, lineActive l = false) :
    (load enc c lines).2 = c := by
  have hdec : decodeLines c lines = c := by
    induction lines generalizing c with
    | nil => rfl
    | cons l ls ih =>
      have h1 : applyLine c l = c := applyLine_inert c l (h l (List.mem_cons_self l ls))
      have h2 : ∀ x ∈ ls, lineActive x = false := fun x hx => h x (List.mem_cons_of_mem l hx)
      unfold decodeLines at ih ⊢
      rw [List.foldl_cons, h1]
      exact ih c h2
  unfold load
  split <;> simp [hdec]

/-- Witness for C8's amended statement: a comment line and an unknown key
leave the default record untouched. -/
theorem c8_witness :
    (load enc25 initDefaultConfig ["# note2".data, "foo=bar".data]).2 =
      initDefaultConfig :=
  c8_load_keeps_unmentioned_fields enc25 initDefaultConfig
    ["# note2".data, "foo=bar".data] (by decide)

/-- A `takeWhile` whose first character already fails the predicate takes
nothing. -/
theorem takeWhile_eq_nil_of_head (p : Char → Bool) (l : List Char)
    (h : ((l.head?.map p).getD false) = false) : l.takeWhile p = [] := by
  cases l with
  | nil => rfl
  | cons c r =>
    simp only [List.head?_cons, Option.map_some', Option.getD_some] at h
    simp [List.takeWhile_cons, h]

/-- A `dropWhile` whose first character already fails the predicate drops
nothing. -/
theorem dropWhile_eq_self_of_head (p : Char → Bool) (l : List Char)
    (h : ((l.head?.map p).getD false) = false) : l.dropWhile p = l := by
  cases l with
  | nil => rfl
  | cons c r =>
    simp only [List.head?_cons, Option.map_some', Option.getD_some] at h
    simp [List.dropWhile_cons, h]

/-- C9: the sub-parsers are total: `parseBool` is true exactly on
case-insensitive `"true"` or on `"1"` and false on every other text; the
integer parsers yield 0 on any text with no digit to consume; `atof`
yields exactly 0 on any text `strtod` consumes nothing of (no mantissa
digit and no `inf`/`nan` keyword), while an `inf`/`nan` keyword produces
the corresponding non-finite class; and no sub-parser can fail `load`
(its only failure condition is the checksum). -/
theorem c9_subparsers_total :
    (∀ l, parseBool l = true ↔ (l.map csToLower = "true".data ∨ l = "1".data))
    ∧ (∀ l, intNumericStart l = false → atoiInt l = 0)
    ∧ (∀ l, intNumericStart l = false → strtoul0 l = 0)
    ∧ (∀ l, floatNumericStart l = false →
        atofResult l = StrtodResult.finite 0 ∧ atofRat l = 0)
    ∧ (atofResult "inf".data = StrtodResult.posInf
        ∧ atofResult "-INFINITY".data = StrtodResult.negInf
        ∧ atofResult "nan".data = StrtodResult.nan)
    ∧ (∀ (enc : Rat → List Nat) (c : DiceConfig) (lines : List (List Char)),
        (load enc c lines).1 = false → (load enc c lines).2.checksum ≠ 0) := by
  refine ⟨?_, ?_, ?_, ?_, ?_, ?_⟩
  · intro l
    simp [parseBool]
  · intro l h
    unfold intNumericStart afterSign at h
    unfold atoiInt
    rcases hsp : stripSign (l.dropWhile csIsSpace) with ⟨neg, l2⟩
    rw [hsp] at h
    dsimp only at h ⊢
    rw [takeWhile_eq_nil_of_head _ _ h]
    cases neg <;> simp [decVal]
  · intro l h
    unfold intNumericStart afterSign at h
    unfold strtoul0
    rcases hsp : stripSign (l.dropWhile csIsSpace) with ⟨neg, l2⟩
    rw [hsp] at h
    dsimp only at h ⊢
    have hz : ¬(l2.head? = some '0') := by
      intro hc
      rw [hc] at h
      simp [csIsDigit] at h
    rw [if_neg hz, takeWhile_eq_nil_of_head _ _ h]
    cases neg <;> simp [decVal]
  · intro l h
    unfold floatNumericStart afterSign at h
    rcases hsp : stripSign (l.dropWhile csIsSpace) with ⟨neg, l2⟩
    rw [hsp] at h
    dsimp only at h
    simp only [Bool.or_eq_false_iff, beq_eq_false_iff_ne, ne_eq] at h
    obtain ⟨⟨hdig, hinf⟩, hnan⟩ := h
    have hres : atofResult l = StrtodResult.finite 0 := by
      unfold atofResult
      rw [hsp]
      dsimp only
      rw [if_neg hinf, if_neg hnan]
      have hhex : ¬(l2.head? = some '0'
          ∧ (l2.tail.head? = some 'x' ∨ l2.tail.head? = some 'X')
          ∧ (((l2.tail.tail.head?.map csIsHexDigit).getD false)
             ∨ (l2.tail.tail.head? = some '.'
                ∧ ((l2.tail.tail.tail.head?.map csIsHexDigit).getD false)))) := by
        rintro ⟨h0, -, -⟩
        rw [h0] at hdig
        have hne : ¬((some '0' : Option Char) = some '.') := by decide
        rw [if_neg hne] at hdig
        simp [csIsDigit] at hdig
      rw [if_neg hhex]
      congr 1
      unfold atofDecimal
      dsimp only
      by_cases hdot : l2.head? = some '.'
      · rw [if_pos hdot] at hdig
        have hdig2 : ((l2.head?.map csIsDigit).getD false) = false := by
          rw [hdot]; simp [csIsDigit]
        rw [takeWhile_eq_nil_of_head _ _ hdig2, dropWhile_eq_self_of_head _ _ hdig2]
        rw [if_pos hdot, takeWhile_eq_nil_of_head _ _ hdig]
        simp
      · rw [if_neg hdot] at hdig
        rw [takeWhile_eq_nil_of_head _ _ hdig, dropWhile_eq_self_of_head _ _ hdig]
        rw [if_neg hdot]
        simp
    refine ⟨hres, ?_⟩
    unfold atofRat
    rw [hres]
  · exact ⟨by decide, by decide, by decide⟩
  · intro enc c lines h
    unfold load at h ⊢
    by_cases hc : ((decodeLines c lines).checksum ≠ 0
        ∧ ¬(validateChecksum enc (decodeLines c lines) = true))
    · rw [if_pos hc]
      exact hc.1
    · rw [if_neg hc] at h
      simp at h

/-- C3 counterexample: the claim says a unique match returns that entry's
path normalized to begin with `"/"`.  For a 70-character entry name the
64-byte path buffer truncates: `findConfigFile` returns the slash plus
only the first 62 characters of the name, not the entry's path. -/
theorem c3_counterexample :
    findConfigFile [longName] = FindRes.found ('/' :: longName.take 62) ∧
      FindRes.found ('/' :: longName.take 62) ≠ FindRes.found ('/' :: longName) := by
  decide

/-- Once at least one match has been seen, the rest of the directory walk
only counts further matches and keeps the stored first match. -/
theorem fcfLoop_ge_one (entries : List (List Char)) :
    ∀ (cnt : Nat) (fm : List Char), 1 ≤ cnt →
      fcfLoop entries cnt fm = (cnt + (entries.filter nameMatches).length, fm) := by
  induction entries with
  | nil => intro cnt fm _; simp [fcfLoop]
  | cons name rest ih =>
    intro cnt fm h
    unfold fcfLoop
    by_cases hm : nameMatches name
    · rw [if_pos hm, if_neg (by omega : ¬(cnt + 1 = 1)), ih (cnt + 1) fm (by omega)]
      simp only [List.filter_cons, hm, if_pos, List.length_cons, Prod.mk.injEq]
      exact ⟨by omega, trivial⟩
    · rw [if_neg hm, ih cnt fm h]
      simp [List.filter_cons, hm]

/-- The directory walk started at count 0 yields the number of matches
and (when any) the first match truncated to the buffer. -/
theorem fcfLoop_from_zero (entries : List (List Char)) :
    ∀ fm : List Char,
      fcfLoop entries 0 fm =
        ((entries.filter nameMatches).length,
          match entries.filter nameMatches with
          | [] => fm
          | n :: _ => n.take 63) := by
  induction entries with
  | nil => intro fm; simp [fcfLoop]
  | cons name rest ih =>
    intro fm
    unfold fcfLoop
    by_cases hm : nameMatches name
    · rw [if_pos hm, if_pos rfl, fcfLoop_ge_one rest 1 (name.take 63) le_rfl]
      simp [List.filter_cons, hm]
      omega
    · rw [if_neg hm, ih fm]
      simp [List.filter_cons, hm]

/-- C3 amended: `findConfigFile` over the directory entries behaves as the
spec's Discovery Scanner with the path-buffer truncation added: the
unique `*_config.txt` match returns its path truncated to the 64-byte
buffer and normalized to begin with `"/"` (so names of up to 62
characters come back whole), zero matches is NotFound, several is
Ambiguous. -/
theorem c3_find_matches_spec :
    ∀ entries, findConfigFile entries = findUniqueSpec entries := by
  intro entries
  unfold findConfigFile findUniqueSpec
  rw [fcfLoop_from_zero]
  rcases hf : entries.filter nameMatches with _ | ⟨n, rest⟩
  · simp
  · rcases rest with _ | ⟨m, rest2⟩
    · simp
    · simp

/-- C4: `begin` reports failure exactly when the mount fails; with the
mount up it always reports success, and the record falls back to the
Default Policy output whenever discovery does not produce a unique path,
whenever the discovered file cannot be opened, and whenever `load` on the
discovered file fails. -/
theorem c4_begin_mount_only_failure :
    (∀ (enc : Rat → List Nat) mountOk entries files (c : DiceConfig) ppath cp,
      (beginM enc mountOk entries files c ppath cp).1 = mountOk)
    ∧ (∀ (enc : Rat → List Nat) entries files (c : DiceConfig) ppath,
        (∀ fp, findConfigFile entries ≠ FindRes.found fp) →
        beginM enc true entries files c ppath none =
          (true, initDefaultConfig, "/config.txt".data))
    ∧ (∀ (enc : Rat → List Nat) entries files (c : DiceConfig) ppath fp,
        findConfigFile entries = FindRes.found fp → files fp = none →
        (beginM enc true entries files c ppath none).2.1 = initDefaultConfig)
    ∧ (∀ (enc : Rat → List Nat) entries files (c : DiceConfig) ppath fp lines,
        findConfigFile entries = FindRes.found fp → files fp = some lines →
        (load enc c lines).1 = false →
        (beginM enc true entries files c ppath none).2.1 = initDefaultConfig) := by
  refine ⟨?_, ?_, ?_, ?_⟩
  · intro enc mountOk entries files c ppath cp
    cases mountOk with
    | false => rfl
    | true =>
      unfold beginM
      rw [if_pos rfl]
      cases cp with
      | some p => exact beginLoad_fst enc files c (p.take 63)
      | none =>
        cases hf : findConfigFile entries with
        | found fp => exact beginLoad_fst enc files c fp
        | notFound => rfl
        | ambiguous => rfl
  · intro enc entries files c ppath h
    unfold beginM
    rw [if_pos rfl]
    cases hf : findConfigFile entries with
    | found fp => exact absurd hf (h fp)
    | notFound => rfl
    | ambiguous => rfl
  · intro enc entries files c ppath fp hf hopen
    unfold beginM
    rw [if_pos rfl, hf]
    dsimp only
    unfold beginLoad
    rw [hopen]
  · intro enc entries files c ppath fp lines hf hopen hload
    unfold beginM
    rw [if_pos rfl, hf]
    dsimp only
    unfold beginLoad
    rw [hopen]
    dsimp only
    rw [hload]
    rfl

/-- The boolean structure of `validate` as a four-condition
characterization. -/
theorem validate_eq_true_iff :
    ∀ (enc : Rat → List Nat) (c : DiceConfig), validate enc c = true ↔
      (c.diceId ≠ [] ∧ c.randomSwitchPoint ≤ 100 ∧ 0 < c.tumbleConstant ∧
        (c.checksum ≠ 0 → calcChecksumVal enc c = c.checksum)) := by
  intro enc c
  simp only [validate, validateChecksum, Bool.and_eq_true, Bool.not_eq_true',
    decide_eq_false_iff_not, not_lt, not_le, beq_eq_false_iff_ne, ne_eq,
    Bool.and_eq_false_iff, bne_eq_false_iff_eq, Bool.not_eq_false', beq_iff_eq]
  constructor
  · rintro ⟨⟨⟨h1, h2⟩, h3⟩, h4⟩
    refine ⟨by simpa [List.length_eq_zero] using h1, h2, h3, ?_⟩
    intro hck
    rcases h4 with h4 | h4
    · exact absurd h4 hck
    · exact h4
  · rintro ⟨h1, h2, h3, h4⟩
    refine ⟨⟨⟨?_, h2⟩, h3⟩, ?_⟩
    · simpa [List.length_eq_zero] using h1
    · by_cases hck : c.checksum = 0
      · exact Or.inl hck
      · exact Or.inr (h4 hck)

/-- C6: `validate` is true exactly when the four conditions hold (diceId
non-empty, randomSwitchPoint at most 100, tumbleConstant positive, and a
non-zero stored checksum equal to the recomputed value), and the claim's
boundary cases: randomSwitchPoint 100 valid, 101 invalid; tumbleConstant
0 invalid, 0.01 valid. -/
theorem c6_validate_characterization :
    (∀ (enc : Rat → List Nat) (c : DiceConfig), validate enc c = true ↔
        (c.diceId ≠ [] ∧ c.randomSwitchPoint ≤ 100 ∧ 0 < c.tumbleConstant ∧
          (c.checksum ≠ 0 → calcChecksumVal enc c = c.checksum)))
    ∧ validate enc25 { initDefaultConfig with randomSwitchPoint := 100 } = true
    ∧ validate enc25 { initDefaultConfig with randomSwitchPoint := 101 } = false
    ∧ validate enc25 { initDefaultConfig with tumbleConstant := 0 } = false
    ∧ validate enc25 { initDefaultConfig with tumbleConstant := 1 / 100 } = true := by
  have hmain := validate_eq_true_iff
  refine ⟨hmain, ?_, ?_, ?_, ?_⟩
  · refine (hmain _ _).mpr ⟨by decide, by decide, ?_, fun h => absurd rfl h⟩
    show (0 : Rat) < 5 / 2
    norm_num
  · rw [← Bool.not_eq_true, hmain]
    rintro ⟨-, h2, -, -⟩
    revert h2
    decide
  · rw [← Bool.not_eq_true, hmain]
    rintro ⟨-, -, h3, -⟩
    revert h3
    show ¬((0 : Rat) < 0)
    norm_num
  · refine (hmain _ _).mpr ⟨by decide, by decide, ?_, fun h => absurd rfl h⟩
    show (0 : Rat) < 1 / 100
    norm_num

/-! ## Round-trip machinery: character classes and digit printing -/

/-- Facts about the decimal digit characters the encoder emits. -/
theorem digitChar_class : ∀ d, d < 10 →
    csIsDigit (digitChar d) = true ∧ csIsSpace (digitChar d) = false ∧
      digVal (digitChar d) = d ∧ ¬digitChar d = '-' ∧ ¬digitChar d = '+' ∧
      ¬digitChar d = '.' ∧ ¬digitChar d = '=' ∧ ¬digitChar d = '#' ∧
      (digitChar d = '0' ↔ d = 0) := by
  intro d h
  interval_cases d <;> exact (by decide)

/-- Facts about the uppercase hexadecimal digit characters `%02X` emits. -/
theorem hexDigitChar_class : ∀ d, d < 16 →
    csIsHexDigit (hexDigitChar d) = true ∧ csIsSpace (hexDigitChar d) = false ∧
      hexDigVal (hexDigitChar d) = d ∧ ¬hexDigitChar d = '-' ∧
      ¬hexDigitChar d = '+' ∧ ¬hexDigitChar d = 'x' ∧ ¬hexDigitChar d = 'X' ∧
      ¬hexDigitChar d = '=' ∧ ¬hexDigitChar d = '#' ∧ ¬hexDigitChar d = ':' := by
  intro d h
  interval_cases d <;> exact (by decide)

/-- `takeWhile` runs through a block that satisfies the predicate. -/
theorem takeWhile_append_all (p : Char → Bool) :
    ∀ (xs ys : List Char), (∀ c ∈ xs, p c = true) →
      (xs ++ ys).takeWhile p = xs ++ ys.takeWhile p := by
  intro xs
  induction xs with
  | nil => intro ys _; rfl
  | cons x t ih =>
    intro ys h
    have hx : p x = true := h x (List.mem_cons_self x t)
    simp only [List.cons_append, List.takeWhile_cons, hx, if_true]
    rw [ih ys fun c hc => h c (List.mem_cons_of_mem x hc)]

/-- `dropWhile` runs through a block that satisfies the predicate. -/
theorem dropWhile_append_all (p : Char → Bool) :
    ∀ (xs ys : List Char), (∀ c ∈ xs, p c = true) →
      (xs ++ ys).dropWhile p = ys.dropWhile p := by
  intro xs
  induction xs with
  | nil => intro ys _; rfl
  | cons x t ih =>
    intro ys h
    have hx : p x = true := h x (List.mem_cons_self x t)
    simp only [List.cons_append, List.dropWhile_cons, hx, if_true]
    exact ih ys fun c hc => h c (List.mem_cons_of_mem x hc)

/-- `takeWhile` keeps a list all of whose characters satisfy the predicate. -/
theorem takeWhile_all (p : Char → Bool) (xs : List Char)
    (h : ∀ c ∈ xs, p c = true) : xs.takeWhile p = xs := by
  have := takeWhile_append_all p xs [] h
  simpa using this

/-- `dropWhile` empties a list all of whose characters satisfy the predicate. -/
theorem dropWhile_all (p : Char → Bool) (xs : List Char)
    (h : ∀ c ∈ xs, p c = true) : xs.dropWhile p = [] := by
  have := dropWhile_append_all p xs [] h
  simpa using this

/-- The head test is false on a list all of whose characters fail the
predicate. -/
theorem head_getD_false_of_all (p : Char → Bool) (l : List Char)
    (h : ∀ c ∈ l, p c = false) : ((l.head?.map p).getD false) = false := by
  cases l with
  | nil => rfl
  | cons c t =>
    simp only [List.head?_cons, Option.map_some', Option.getD_some]
    exact h c (List.mem_cons_self c t)

/-- The last-character test is false on a list all of whose characters fail
the predicate. -/
theorem getLast_getD_false_of_all (p : Char → Bool) (l : List Char)
    (h : ∀ c ∈ l, p c = false) : ((l.getLast?.map p).getD false) = false := by
  cases hl : l.getLast? with
  | none => rfl
  | some c =>
    have hc : c ∈ l := by
      rcases List.mem_getLast?_eq_getLast (x := c) (l := l) (by rw [hl]; rfl) with ⟨hne, hcl⟩
      rw [hcl]
      exact List.getLast_mem hne
    simp only [Option.map_some', Option.getD_some]
    exact h c hc

/-- `stripSign` is the identity when the text does not start with a sign. -/
theorem stripSign_no_sign (l : List Char) (h1 : ¬l.head? = some '-')
    (h2 : ¬l.head? = some '+') : stripSign l = (false, l) := by
  cases l with
  | nil => rfl
  | cons c r =>
    unfold stripSign
    dsimp only
    rw [if_neg fun e => h1 (by rw [List.head?_cons, e]),
      if_neg fun e => h2 (by rw [List.head?_cons, e])]

/-- Every character of the digit run is a digit character. -/
theorem natDigitsAux_mem : ∀ (fuel n : Nat), ∀ c ∈ natDigitsAux fuel n,
    ∃ d, d < 10 ∧ c = digitChar d := by
  intro fuel
  induction fuel with
  | zero => intro n c h; simp [natDigitsAux] at h
  | succ f ih =>
    intro n c h
    unfold natDigitsAux at h
    by_cases hn : n = 0
    · rw [if_pos hn] at h; simp at h
    · rw [if_neg hn] at h
      rcases List.mem_cons.mp h with h1 | h2
      · exact ⟨n % 10, Nat.mod_lt _ (by norm_num), h1⟩
      · exact ih _ c h2

/-- The digit run of 0 is empty at any fuel. -/
theorem natDigitsAux_zero : ∀ fuel, natDigitsAux fuel 0 = [] := by
  intro fuel; cases fuel <;> simp [natDigitsAux]

/-- The digit run of a non-zero value is non-empty. -/
theorem natDigitsAux_ne_nil : ∀ (fuel n : Nat), n ≠ 0 → 1 ≤ fuel →
    natDigitsAux fuel n ≠ [] := by
  intro fuel n h hf
  cases fuel with
  | zero => omega
  | succ f =>
    unfold natDigitsAux
    rw [if_neg h]
    exact List.cons_ne_nil _ _

/-- Reading the digit run back most-significant-first recovers the value. -/
theorem decVal_reverse_natDigitsAux : ∀ (fuel n : Nat), n ≤ fuel →
    decVal ((natDigitsAux fuel n).reverse) = n := by
  intro fuel
  induction fuel with
  | zero =>
    intro n h
    have : n = 0 := by omega
    subst this
    simp [natDigitsAux, decVal]
  | succ f ih =>
    intro n h
    by_cases hn : n = 0
    · subst hn; simp [natDigitsAux, decVal]
    · unfold natDigitsAux
      rw [if_neg hn, List.reverse_cons]
      have hstep : decVal ((natDigitsAux f (n / 10)).reverse ++ [digitChar (n % 10)]) =
          decVal ((natDigitsAux f (n / 10)).reverse) * 10 + digVal (digitChar (n % 10)) := by
        simp [decVal, List.foldl_append]
      rw [hstep, ih (n / 10) (by omega),
        (digitChar_class (n % 10) (Nat.mod_lt _ (by norm_num))).2.2.1]
      omega

/-- Every character of a printed decimal value is a digit character. -/
theorem natRepr_mem (n : Nat) : ∀ c ∈ natRepr n, ∃ d, d < 10 ∧ c = digitChar d := by
  intro c hc
  unfold natRepr at hc
  by_cases hn : n = 0
  · rw [if_pos hn] at hc
    simp only [List.mem_singleton] at hc
    exact ⟨0, by norm_num, by rw [hc]; rfl⟩
  · rw [if_neg hn] at hc
    exact natDigitsAux_mem n n c (List.mem_reverse.mp hc)

/-- Printed decimal values consist of digits. -/
theorem natRepr_all_digit (n : Nat) : ∀ c ∈ natRepr n, csIsDigit c = true := by
  intro c hc
  rcases natRepr_mem n c hc with ⟨d, hd, rfl⟩
  exact (digitChar_class d hd).1

/-- Printed decimal values contain no whitespace. -/
theorem natRepr_all_nonspace (n : Nat) : ∀ c ∈ natRepr n, csIsSpace c = false := by
  intro c hc
  rcases natRepr_mem n c hc with ⟨d, hd, rfl⟩
  exact (digitChar_class d hd).2.1

/-- A character no digit character equals does not occur in a printed
decimal value. -/
theorem natRepr_no_char (n : Nat) (ch : Char)
    (h : ∀ d, d < 10 → ¬digitChar d = ch) : ch ∉ natRepr n := by
  intro hm
  rcases natRepr_mem n ch hm with ⟨d, hd, he⟩
  exact h d hd he.symm

/-- A list not containing a character does not have it at its head. -/
theorem not_head?_eq_of_not_mem (l : List Char) (ch : Char) (h : ch ∉ l) :
    ¬l.head? = some ch := by
  intro e
  have hcons : l = ch :: l.tail := List.eq_cons_of_mem_head? (by rw [e]; rfl)
  rw [hcons] at h
  exact h (List.mem_cons_self _ _)

/-- Printed decimal values are non-empty. -/
theorem natRepr_ne_nil (n : Nat) : natRepr n ≠ [] := by
  unfold natRepr
  by_cases hn : n = 0
  · rw [if_pos hn]; exact List.cons_ne_nil _ _
  · rw [if_neg hn]
    intro h
    exact natDigitsAux_ne_nil n n hn (by omega) (by simpa using h)

/-- Reading a printed decimal value back recovers it. -/
theorem decVal_natRepr (n : Nat) : decVal (natRepr n) = n := by
  unfold natRepr
  by_cases hn : n = 0
  · rw [if_pos hn, hn]; decide
  · rw [if_neg hn]
    exact decVal_reverse_natDigitsAux n n le_rfl

/-- The most significant digit of a non-zero value is not `'0'`. -/
theorem natDigitsAux_getLast_ne_zero : ∀ (fuel n : Nat), n ≠ 0 → n ≤ fuel →
    ∀ c, (natDigitsAux fuel n).getLast? = some c → ¬c = '0' := by
  intro fuel
  induction fuel with
  | zero => intro n h hle; omega
  | succ f ih =>
    intro n hn hle c hc
    unfold natDigitsAux at hc
    rw [if_neg hn] at hc
    by_cases hq : n / 10 = 0
    · rw [hq, natDigitsAux_zero] at hc
      have hlt : n < 10 := by omega
      have hmod : n % 10 = n := Nat.mod_eq_of_lt hlt
      simp only [hmod, List.getLast?_singleton, Option.some.injEq] at hc
      rw [← hc]
      intro hzero
      exact hn ((digitChar_class n hlt).2.2.2.2.2.2.2.2.mp hzero)
    · have htne : natDigitsAux f (n / 10) ≠ [] :=
        natDigitsAux_ne_nil f (n / 10) hq (by omega)
      rw [show (digitChar (n % 10) :: natDigitsAux f (n / 10)) =
          [digitChar (n % 10)] ++ natDigitsAux f (n / 10) from rfl,
        List.getLast?_append_of_ne_nil _ htne] at hc
      exact ih (n / 10) hq (by omega) c hc

/-- A printed non-zero decimal value does not begin with `'0'` (so the
`strtoul` base detection reads it as decimal). -/
theorem natRepr_head_ne_zero (n : Nat) (hn : n ≠ 0) :
    ¬(natRepr n).head? = some '0' := by
  unfold natRepr
  rw [if_neg hn, List.head?_reverse]
  intro h
  exact natDigitsAux_getLast_ne_zero n n hn le_rfl '0' h rfl

/-- `strtoul(_, NULL, 0)` reads a printed 32-bit decimal value back. -/
theorem strtoul0_natRepr (n : Nat) (h : n < 4294967296) :
    strtoul0 (natRepr n) = n := by
  by_cases hn : n = 0
  · subst hn; decide
  · unfold strtoul0
    rw [dropWhile_eq_self_of_head _ _ (head_getD_false_of_all _ _ (natRepr_all_nonspace n)),
      stripSign_no_sign _
        (not_head?_eq_of_not_mem _ _ (natRepr_no_char n '-' fun d hd => ((digitChar_class d hd).2.2.2.1)))
        (not_head?_eq_of_not_mem _ _ (natRepr_no_char n '+' fun d hd => ((digitChar_class d hd).2.2.2.2.1)))]
    dsimp only
    rw [if_neg (natRepr_head_ne_zero n hn),
      takeWhile_all _ _ (natRepr_all_digit n), decVal_natRepr,
      Nat.mod_eq_of_lt h]
    simp

/-- `atoi` reads a printed unsigned decimal value back. -/
theorem atoiInt_natRepr (n : Nat) : atoiInt (natRepr n) = n := by
  unfold atoiInt
  rw [dropWhile_eq_self_of_head _ _ (head_getD_false_of_all _ _ (natRepr_all_nonspace n)),
    stripSign_no_sign _
      (not_head?_eq_of_not_mem _ _ (natRepr_no_char n '-' fun d hd => ((digitChar_class d hd).2.2.2.1)))
      (not_head?_eq_of_not_mem _ _ (natRepr_no_char n '+' fun d hd => ((digitChar_class d hd).2.2.2.2.1)))]
  dsimp only
  rw [takeWhile_all _ _ (natRepr_all_digit n), decVal_natRepr]
  simp

/-- `atoi` reads a printed signed decimal value back. -/
theorem atoiInt_intRepr (i : Int) : atoiInt (intRepr i) = i := by
  unfold intRepr
  by_cases hi : i < 0
  · rw [if_pos hi]
    unfold atoiInt
    have hns : csIsSpace '-' = false := by decide
    rw [List.dropWhile_cons]
    simp only [hns, Bool.false_eq_true, if_false]
    unfold stripSign
    dsimp only
    rw [if_pos rfl]
    dsimp only
    rw [takeWhile_all _ _ (natRepr_all_digit _), decVal_natRepr]
    simp
    omega
  · rw [if_neg hi, atoiInt_natRepr]
    omega

/-- Single-digit printed values. -/
theorem natRepr_small (k : Nat) (h : k < 10) : natRepr k = [digitChar k] := by
  interval_cases k <;> decide

/-- The two-digit fraction field is all digits. -/
theorem pad2_all_digit (k : Nat) (h : k < 100) : ∀ c ∈ pad2 k, csIsDigit c = true := by
  intro c hc
  unfold pad2 at hc
  by_cases hk : k < 10
  · rw [if_pos hk] at hc
    rcases List.mem_cons.mp hc with rfl | hm
    · decide
    · exact natRepr_all_digit k c hm
  · rw [if_neg hk] at hc
    exact natRepr_all_digit k c hc

/-- The two-digit fraction field is non-empty. -/
theorem pad2_ne_nil (k : Nat) : pad2 k ≠ [] := by
  unfold pad2
  by_cases hk : k < 10
  · rw [if_pos hk]; exact List.cons_ne_nil _ _
  · rw [if_neg hk]; exact natRepr_ne_nil k

/-- Reading the two-digit fraction field back recovers the value. -/
theorem decVal_pad2 (k : Nat) : decVal (pad2 k) = k := by
  unfold pad2
  by_cases hk : k < 10
  · rw [if_pos hk]
    have : decVal ('0' :: natRepr k) = decVal (natRepr k) := by
      simp [decVal, digVal]
    rw [this, decVal_natRepr]
  · rw [if_neg hk, decVal_natRepr]

/-- The two-digit fraction field has length 2. -/
theorem pad2_length (k : Nat) (h : k < 100) : (pad2 k).length = 2 := by
  unfold pad2
  by_cases hk : k < 10
  · rw [if_pos hk, natRepr_small k hk]
    rfl
  · rw [if_neg hk]
    have h10 : 10 ≤ k := by omega
    have h2 : natRepr k = [digitChar (k / 10), digitChar (k % 10)] := by
      interval_cases k <;> decide
    rw [h2]
    rfl

/-- The head test transfers along a non-empty left block of an append. -/
theorem head_getD_append (p : Char → Bool) (xs ys : List Char) (hx : xs ≠ []) :
    (((xs ++ ys).head?.map p).getD false) = ((xs.head?.map p).getD false) := by
  rw [List.head?_append_of_ne_nil _ hx]

/-- A head inequality transfers along a non-empty left block of an append. -/
theorem not_head?_append (xs ys : List Char) (ch : Char) (hx : xs ≠ [])
    (h : ¬xs.head? = some ch) : ¬(xs ++ ys).head? = some ch := by
  rw [List.head?_append_of_ne_nil _ hx]
  exact h

/-- A decimal digit character is already lowercase and is neither the
`'i'` of an `inf` keyword nor the `'n'` of a `nan` keyword. -/
theorem digitChar_class2 : ∀ d, d < 10 →
    ¬csToLower (digitChar d) = 'i' ∧ ¬csToLower (digitChar d) = 'n' := by
  decide

/-- The decimal branch of `strtod` on the unsigned body of a `%.2f`
rendering yields the hundredths value, with the requested sign. -/
theorem atofDecimal_fmt2n_body (m : Nat) (neg : Bool) :
    atofDecimal neg (fmt2n m) = (if neg then -((m : Rat) / 100) else (m : Rat) / 100) := by
  unfold atofDecimal
  dsimp only
  unfold fmt2n
  have hmod : m % 100 < 100 := Nat.mod_lt _ (by norm_num)
  have hip : (natRepr (m / 100) ++ '.' :: pad2 (m % 100)).takeWhile csIsDigit =
      natRepr (m / 100) := by
    rw [takeWhile_append_all _ _ _ (natRepr_all_digit _)]
    simp [List.takeWhile_cons, csIsDigit]
  have hr2 : (natRepr (m / 100) ++ '.' :: pad2 (m % 100)).dropWhile csIsDigit =
      '.' :: pad2 (m % 100) := by
    rw [dropWhile_append_all _ _ _ (natRepr_all_digit _)]
    simp [List.dropWhile_cons, csIsDigit]
  rw [hip, hr2]
  simp only [List.head?_cons, List.tail_cons, Option.some.injEq, eq_self_iff_true, if_true]
  rw [takeWhile_all _ _ (pad2_all_digit _ hmod), dropWhile_all _ _ (pad2_all_digit _ hmod)]
  rw [if_neg (by
    rintro ⟨h1, -⟩
    exact natRepr_ne_nil _ h1)]
  rw [decVal_natRepr, decVal_pad2, pad2_length _ hmod]
  simp only [List.head?_nil, reduceCtorEq, or_self, if_false, zpow_zero, mul_one]
  have hcast : ((m : Rat)) = 100 * ((m / 100 : Nat) : Rat) + ((m % 100 : Nat) : Rat) := by
    exact_mod_cast (Nat.div_add_mod m 100).symm
  have hval : ((m / 100 : Nat) : Rat) + ((m % 100 : Nat) : Rat) / (10 : Rat) ^ (2 : Nat) =
      (m : Rat) / 100 := by
    rw [hcast]
    norm_num
    ring
  cases neg with
  | false => simpa using hval
  | true => simp only [if_pos rfl, if_true]; rw [← hval]

/-- Parsing the unsigned body of a `%.2f` rendering yields the hundredths
value, with the sign applied as `stripSign` reported it: the rendering
starts with a decimal digit, so `strtod` takes neither the `inf`/`nan`
keyword branch nor the hex-float branch. -/
theorem atof_after_sign (m : Nat) (neg : Bool) (l : List Char)
    (hdw : l.dropWhile csIsSpace = l)
    (hsp : stripSign l = (neg, fmt2n m)) :
    atofRat l = (if neg then -((m : Rat) / 100) else (m : Rat) / 100) := by
  have hne : natRepr (m / 100) ≠ [] := natRepr_ne_nil _
  rcases hnr : natRepr (m / 100) with _ | ⟨a, as⟩
  · exact absurd hnr hne
  have hmem : a ∈ natRepr (m / 100) := by rw [hnr]; exact List.mem_cons_self _ _
  obtain ⟨d, hd, rfl⟩ := natRepr_mem _ a hmem
  have hfm : fmt2n m = digitChar d :: (as ++ '.' :: pad2 (m % 100)) := by
    unfold fmt2n; rw [hnr]; rfl
  have hinf : ¬(((fmt2n m).take 3).map csToLower = "inf".data) := by
    intro hco
    have ht : (fmt2n m).take 3
        = digitChar d :: (as ++ '.' :: pad2 (m % 100)).take 2 := by
      rw [hfm, show (3 : Nat) = 2 + 1 from rfl, List.take_succ_cons]
    rw [ht, List.map_cons, show "inf".data = 'i' :: "nf".data from rfl] at hco
    injection hco with h1 h2
    exact (digitChar_class2 d hd).1 h1
  have hnan : ¬(((fmt2n m).take 3).map csToLower = "nan".data) := by
    intro hco
    have ht : (fmt2n m).take 3
        = digitChar d :: (as ++ '.' :: pad2 (m % 100)).take 2 := by
      rw [hfm, show (3 : Nat) = 2 + 1 from rfl, List.take_succ_cons]
    rw [ht, List.map_cons, show "nan".data = 'n' :: "an".data from rfl] at hco
    injection hco with h1 h2
    exact (digitChar_class2 d hd).2 h1
  have hhex : ¬((fmt2n m).head? = some '0'
      ∧ ((fmt2n m).tail.head? = some 'x' ∨ (fmt2n m).tail.head? = some 'X')
      ∧ ((((fmt2n m).tail.tail.head?.map csIsHexDigit).getD false)
         ∨ ((fmt2n m).tail.tail.head? = some '.'
            ∧ (((fmt2n m).tail.tail.tail.head?.map csIsHexDigit).getD false)))) := by
    rintro ⟨h0, hx, -⟩
    by_cases hq : m / 100 = 0
    · have h00 : natRepr (m / 100) = ['0'] := by rw [hq]; decide
      rw [hnr] at h00
      injection h00 with h1 h2
      rw [hfm, List.tail_cons, h2, List.nil_append, List.head?_cons] at hx
      rcases hx with hx | hx
      · exact absurd hx (by decide)
      · exact absurd hx (by decide)
    · unfold fmt2n at h0
      rw [List.head?_append_of_ne_nil _ hne] at h0
      exact natRepr_head_ne_zero (m / 100) hq h0
  have hres : atofResult l = StrtodResult.finite (atofDecimal neg (fmt2n m)) := by
    unfold atofResult
    rw [hdw, hsp]
    dsimp only
    rw [if_neg hinf, if_neg hnan, if_neg hhex]
  unfold atofRat
  rw [hres]
  exact atofDecimal_fmt2n_body m neg

/-- `atof` reads the unsigned `%.2f` rendering back. -/
theorem atof_fmt2n (m : Nat) : atofRat (fmt2n m) = (m : Rat) / 100 := by
  have hne : natRepr (m / 100) ≠ [] := natRepr_ne_nil _
  have hdw : (fmt2n m).dropWhile csIsSpace = fmt2n m := by
    unfold fmt2n
    exact dropWhile_eq_self_of_head _ _
      (by rw [head_getD_append _ _ _ hne]
          exact head_getD_false_of_all _ _ (natRepr_all_nonspace _))
  have hsp : stripSign (fmt2n m) = (false, fmt2n m) := by
    unfold fmt2n
    exact stripSign_no_sign _
      (not_head?_append _ _ _ hne
        (not_head?_eq_of_not_mem _ _ (natRepr_no_char _ '-' fun d hd => (digitChar_class d hd).2.2.2.1)))
      (not_head?_append _ _ _ hne
        (not_head?_eq_of_not_mem _ _ (natRepr_no_char _ '+' fun d hd => (digitChar_class d hd).2.2.2.2.1)))
  have := atof_after_sign m false (fmt2n m) hdw hsp
  simpa using this

/-- `atof` reads the negated `%.2f` rendering back. -/
theorem atof_neg_fmt2n (m : Nat) : atofRat ('-' :: fmt2n m) = -((m : Rat) / 100) := by
  have hdw : (('-' : Char) :: fmt2n m).dropWhile csIsSpace = '-' :: fmt2n m := by
    simp [List.dropWhile_cons, csIsSpace]
  have hsp : stripSign ('-' :: fmt2n m) = (true, fmt2n m) := by
    unfold stripSign
    dsimp only
    rw [if_pos rfl]
  have := atof_after_sign m true ('-' :: fmt2n m) hdw hsp
  simpa using this

/-- `atof` applied to the `%.2f` rendering of the (rational-modelled) float
yields exactly its two-decimal rounding. -/
theorem atof_fmt2 (q : Rat) : atofRat (fmt2 q) = round2 q := by
  unfold fmt2 round2
  by_cases hq : q < 0
  · rw [if_pos hq, if_pos hq, atof_neg_fmt2n]
    have h0 : (0 : Int) ≤ round (-q * 100) := by
      rw [round_eq]
      refine Int.le_floor.mpr ?_
      push_cast
      nlinarith
    rw [show (((round (-q * 100)).toNat : Nat) : Rat) = ((round (-q * 100) : Int) : Rat) by
      exact_mod_cast congrArg (fun z : Int => (z : Rat)) (Int.toNat_of_nonneg h0)]
  · rw [if_neg hq, if_neg hq, atof_fmt2n]
    have h0 : (0 : Int) ≤ round (q * 100) := by
      rw [round_eq]
      refine Int.le_floor.mpr ?_
      push_cast
      nlinarith [not_lt.mp hq]
    rw [show (((round (q * 100)).toNat : Nat) : Rat) = ((round (q * 100) : Int) : Rat) by
      exact_mod_cast congrArg (fun z : Int => (z : Rat)) (Int.toNat_of_nonneg h0)]

/-- The `uint8_t` narrowing of a scanned byte value is the identity on
bytes. -/
theorem byte_cast_id (x : Nat) (h : x < 256) : (((x : Int)) % 256).toNat = x := by
  rw [Int.emod_eq_of_lt (by positivity) (by exact_mod_cast h)]
  simp

/-- Both characters of `%02X` output are hexadecimal digit characters. -/
theorem hex2_mem (b : Nat) : ∀ c ∈ hex2 b, ∃ d, d < 16 ∧ c = hexDigitChar d := by
  intro c hc
  unfold hex2 at hc
  rcases List.mem_cons.mp hc with rfl | hc2
  · exact ⟨b / 16 % 16, Nat.mod_lt _ (by norm_num), rfl⟩
  · rcases List.mem_cons.mp hc2 with rfl | hc3
    · exact ⟨b % 16, Nat.mod_lt _ (by norm_num), rfl⟩
    · simp at hc3

/-- One `%x` conversion reads a `%02X`-printed byte back and stops at the
first character after it when that is not a hex digit. -/
theorem scanHex_hex2 (b : Nat) (hb : b < 256) (rest : List Char)
    (hrest : ((rest.head?.map csIsHexDigit).getD false) = false) :
    scanHexInt (hex2 b ++ rest) = some ((b : Int), rest) := by
  have hhi : b / 16 < 16 := by omega
  have hhim : b / 16 % 16 = b / 16 := Nat.mod_eq_of_lt hhi
  have hhi16 : b / 16 % 16 < 16 := Nat.mod_lt _ (by norm_num)
  have hlo : b % 16 < 16 := Nat.mod_lt _ (by norm_num)
  have hallhex : ∀ c ∈ hex2 b, csIsHexDigit c = true := by
    intro c hc
    rcases hex2_mem b c hc with ⟨d, hd, rfl⟩
    exact (hexDigitChar_class d hd).1
  have hallns : ∀ c ∈ hex2 b, csIsSpace c = false := by
    intro c hc
    rcases hex2_mem b c hc with ⟨d, hd, rfl⟩
    exact (hexDigitChar_class d hd).2.1
  have hne : hex2 b ≠ [] := by unfold hex2; exact List.cons_ne_nil _ _
  have htl : (hex2 b ++ rest).tail = hexDigitChar (b % 16) :: rest := by
    unfold hex2
    rfl
  have hpre : ¬((hex2 b ++ rest).head? = some '0'
      ∧ ((hex2 b ++ rest).tail.head? = some 'x' ∨ (hex2 b ++ rest).tail.head? = some 'X')
      ∧ (((hex2 b ++ rest).tail.tail.head?.map csIsHexDigit).getD false) = true) := by
    rintro ⟨-, hx, -⟩
    rcases hx with hx | hx
    · rw [htl, List.head?_cons] at hx
      exact (hexDigitChar_class _ hlo).2.2.2.2.2.1 (Option.some.inj hx)
    · rw [htl, List.head?_cons] at hx
      exact (hexDigitChar_class _ hlo).2.2.2.2.2.2.1 (Option.some.inj hx)
  have hhead : (((hex2 b ++ rest).head?.map csIsHexDigit).getD false) = true := by
    rw [head_getD_append _ _ _ hne]
    unfold hex2
    rw [List.head?_cons]
    simp only [Option.map_some', Option.getD_some]
    exact (hexDigitChar_class _ hhi16).1
  unfold scanHexInt
  rw [dropWhile_eq_self_of_head _ _
      (by rw [head_getD_append _ _ _ hne]; exact head_getD_false_of_all _ _ hallns),
    stripSign_no_sign _
      (by
        rw [List.head?_append_of_ne_nil _ hne]
        unfold hex2
        rw [List.head?_cons]
        intro e
        exact (hexDigitChar_class _ hhi16).2.2.2.1 (Option.some.inj e))
      (by
        rw [List.head?_append_of_ne_nil _ hne]
        unfold hex2
        rw [List.head?_cons]
        intro e
        exact (hexDigitChar_class _ hhi16).2.2.2.2.1 (Option.some.inj e))]
  dsimp only
  rw [if_neg hpre, if_pos hhead]
  rw [takeWhile_append_all _ _ _ hallhex, takeWhile_eq_nil_of_head _ _ hrest,
    List.append_nil, dropWhile_append_all _ _ _ hallhex,
    dropWhile_eq_self_of_head _ _ hrest]
  have hval : hexVal (hex2 b) = b := by
    unfold hex2 hexVal
    simp only [List.foldl_cons, List.foldl_nil]
    rw [(hexDigitChar_class _ hhi16).2.2.1, (hexDigitChar_class _ hlo).2.2.1]
    omega
  rw [hval]
  simp

/-- One `%x` conversion reads a final `%02X`-printed byte back. -/
theorem scanHex_hex2_last (b : Nat) (hb : b < 256) :
    scanHexInt (hex2 b) = some ((b : Int), []) := by
  have := scanHex_hex2 b hb [] rfl
  rwa [List.append_nil] at this

/-- One step of the `":%x"` scan loop. -/
theorem scanMacRest_cons (n : Nat) (l : List Char) :
    scanMacRest (n + 1) (':' :: l) =
      match scanHexInt l with
      | some (v, r2) =>
        match scanMacRest n r2 with
        | some (vs, r3) => some (v :: vs, r3)
        | none => none
      | none => none := rfl

/-- The exhausted `":%x"` scan loop. -/
theorem scanMacRest_zero (l : List Char) : scanMacRest 0 l = some ([], l) := rfl

/-- `parseMacAddress` reads `macToString`'s rendering back. -/
theorem parseMac_roundtrip (m : List Nat) (hlen : m.length = 6)
    (hb : ∀ x ∈ m, x < 256) : parseMacAddress (macToString m) = some m := by
  rcases m with _ | ⟨a, _ | ⟨b, _ | ⟨c, _ | ⟨d, _ | ⟨e, _ | ⟨f, _ | ⟨g, t⟩⟩⟩⟩⟩⟩⟩ <;>
    simp only [List.length_nil, List.length_cons] at hlen <;> try omega
  have ha : a < 256 := hb a (by simp)
  have hbb : b < 256 := hb b (by simp)
  have hc : c < 256 := hb c (by simp)
  have hd : d < 256 := hb d (by simp)
  have he : e < 256 := hb e (by simp)
  have hf : f < 256 := hb f (by simp)
  have hcolon : ∀ l : List Char, (((':' :: l).head?.map csIsHexDigit).getD false) = false := by
    intro l; simp [csIsHexDigit, csIsDigit]
  have hms : macToString [a, b, c, d, e, f] =
      hex2 a ++ ':' :: (hex2 b ++ ':' :: (hex2 c ++ ':' ::
        (hex2 d ++ ':' :: (hex2 e ++ ':' :: hex2 f)))) := by
    unfold macToString
    simp [List.getD_cons_zero, List.getD_cons_succ]
  rw [hms]
  unfold parseMacAddress
  rw [scanHex_hex2 a ha _ (hcolon _)]
  dsimp only
  rw [scanMacRest_cons 4, scanHex_hex2 b hbb _ (hcolon _)]
  dsimp only
  rw [scanMacRest_cons 3, scanHex_hex2 c hc _ (hcolon _)]
  dsimp only
  rw [scanMacRest_cons 2, scanHex_hex2 d hd _ (hcolon _)]
  dsimp only
  rw [scanMacRest_cons 1, scanHex_hex2 e he _ (hcolon _)]
  dsimp only
  rw [scanMacRest_cons 0, scanHex_hex2_last f hf]
  dsimp only
  rw [scanMacRest_zero]
  dsimp only
  simp only [List.map_cons, List.map_nil,
    byte_cast_id a ha, byte_cast_id b hbb, byte_cast_id c hc,
    byte_cast_id d hd, byte_cast_id e he, byte_cast_id f hf]

/-- `trim` is the identity on text with no whitespace at either end. -/
theorem trim_eq_self (l : List Char)
    (h1 : ((l.head?.map csIsSpace).getD false) = false)
    (h2 : ((l.getLast?.map csIsSpace).getD false) = false) : trim l = l := by
  unfold trim
  rw [dropWhile_eq_self_of_head _ _ h1]
  have hrev : ((l.reverse.head?.map csIsSpace).getD false) = false := by
    rw [List.head?_reverse]
    exact h2
  rw [dropWhile_eq_self_of_head _ _ hrev, List.reverse_reverse]

/-- The cons equation of `splitEq`. -/
theorem splitEq_cons (ch : Char) (rest : List Char) :
    splitEq (ch :: rest) =
      if ch = '=' then some (([] : List Char), rest)
      else
        match splitEq rest with
        | some (k, v) => some (ch :: k, v)
        | none => none := rfl

/-- Splitting at the first `'='` of `key=value` when the key has none. -/
theorem splitEq_key : ∀ (key val : List Char), '=' ∉ key →
    splitEq (key ++ '=' :: val) = some (key, val) := by
  intro key
  induction key with
  | nil =>
    intro val _
    rw [List.nil_append, splitEq_cons, if_pos rfl]
  | cons c k ih =>
    intro val h
    rw [List.cons_append, splitEq_cons,
      if_neg (fun e => h (by rw [← e] at *; exact List.mem_cons_self c k)),
      ih val fun hm => h (List.mem_cons_of_mem c hm)]

/-- The last character of a `key=value` line is the value's last character,
or the `'='` when the value is empty; in both cases not whitespace when
the value ends cleanly. -/
theorem line_getLast_nonspace (key val : List Char)
    (hv2 : ((val.getLast?.map csIsSpace).getD false) = false) :
    (((key ++ '=' :: val).getLast?.map csIsSpace).getD false) = false := by
  by_cases hval : val = []
  · subst hval
    rw [@List.getLast?_append_of_ne_nil Char key ['='] (by simp)]
    decide
  · rw [show key ++ '=' :: val = (key ++ ['=']) ++ val by simp,
      List.getLast?_append_of_ne_nil _ hval]
    exact hv2

/-- A trimmed, non-comment `key=value` line reaches the dispatch with
exactly that key and value. -/
theorem applyLine_kv (c : DiceConfig) (key val : List Char)
    (hkne : key ≠ [])
    (hkns : ∀ ch ∈ key, csIsSpace ch = false)
    (hkeq : '=' ∉ key)
    (hkhash : ¬key.head? = some '#')
    (hv1 : ((val.head?.map csIsSpace).getD false) = false)
    (hv2 : ((val.getLast?.map csIsSpace).getD false) = false) :
    applyLine c (key ++ '=' :: val) = applyKV c key val := by
  obtain ⟨k0, kt, rfl⟩ : ∃ k0 kt, key = k0 :: kt := by
    cases key with
    | nil => exact absurd rfl hkne
    | cons a b => exact ⟨a, b, rfl⟩
  have hvt : trim val = val := by
    rcases hval : val with _ | ⟨v0, vt⟩
    · rfl
    · rw [← hval]
      exact trim_eq_self val hv1 hv2
  have hkt : trim (k0 :: kt) = k0 :: kt :=
    trim_eq_self _ (head_getD_false_of_all _ _ hkns)
      (getLast_getD_false_of_all _ _ hkns)
  have hline : trim ((k0 :: kt) ++ '=' :: val) = (k0 :: kt) ++ '=' :: val :=
    trim_eq_self _
      (by rw [head_getD_append _ _ _ (List.cons_ne_nil _ _)]
          exact head_getD_false_of_all _ _ hkns)
      (line_getLast_nonspace _ _ hv2)
  unfold applyLine
  rw [hline]
  dsimp only [List.cons_append]
  rw [if_neg (fun e => hkhash (by rw [List.head?_cons, e]))]
  rw [show k0 :: (kt ++ '=' :: val) = (k0 :: kt) ++ '=' :: val from rfl,
    splitEq_key _ _ hkeq]
  dsimp only
  rw [hkt, hvt]

/-- The `diceId` branch of the dispatch. -/
theorem applyKV_diceId (c : DiceConfig) (v : List Char) :
    applyKV c "diceId".data v = { c with diceId := v.take 15 } := by
  unfold applyKV
  rw [if_pos rfl]

/-- The `deviceA_mac` branch of the dispatch. -/
theorem applyKV_deviceA_mac (c : DiceConfig) (v : List Char) (m : List Nat)
    (h : parseMacAddress v = some m) :
    applyKV c "deviceA_mac".data v = { c with deviceA_mac := m } := by
  unfold applyKV
  rw [if_neg (by decide)]
  rw [if_pos rfl, h]

/-- The `deviceB1_mac` branch of the dispatch. -/
theorem applyKV_deviceB1_mac (c : DiceConfig) (v : List Char) (m : List Nat)
    (h : parseMacAddress v = some m) :
    applyKV c "deviceB1_mac".data v = { c with deviceB1_mac := m } := by
  unfold applyKV
  rw [if_neg (by decide)]
  rw [if_neg (by decide)]
  rw [if_pos rfl, h]

/-- The `deviceB2_mac` branch of the dispatch. -/
theorem applyKV_deviceB2_mac (c : DiceConfig) (v : List Char) (m : List Nat)
    (h : parseMacAddress v = some m) :
    applyKV c "deviceB2_mac".data v = { c with deviceB2_mac := m } := by
  unfold applyKV
  rw [if_neg (by decide)]
  rw [if_neg (by decide)]
  rw [if_neg (by decide)]
  rw [if_pos rfl, h]

/-- The `x_background` branch of the dispatch. -/
theorem applyKV_x_background (c : DiceConfig) (v : List Char) :
    applyKV c "x_background".data v = { c with x_background := strtoul0 v % 65536 } := by
  unfold applyKV
  rw [if_neg (by decide)]
  rw [if_neg (by decide)]
  rw [if_neg (by decide)]
  rw [if_neg (by decide)]
  rw [if_pos rfl]

/-- The `y_background` branch of the dispatch. -/
theorem applyKV_y_background (c : DiceConfig) (v : List Char) :
    applyKV c "y_background".data v = { c with y_background := strtoul0 v % 65536 } := by
  unfold applyKV
  rw [if_neg (by decide)]
  rw [if_neg (by decide)]
  rw [if_neg (by decide)]
  rw [if_neg (by decide)]
  rw [if_neg (by decide)]
  rw [if_pos rfl]

/-- The `z_background` branch of the dispatch. -/
theorem applyKV_z_background (c : DiceConfig) (v : List Char) :
    applyKV c "z_background".data v = { c with z_background := strtoul0 v % 65536 } := by
  unfold applyKV
  rw [if_neg (by decide)]
  rw [if_neg (by decide)]
  rw [if_neg (by decide)]
  rw [if_neg (by decide)]
  rw [if_neg (by decide)]
  rw [if_neg (by decide)]
  rw [if_pos rfl]

/-- The `entang_ab1_color` branch of the dispatch. -/
theorem applyKV_entang_ab1_color (c : DiceConfig) (v : List Char) :
    applyKV c "entang_ab1_color".data v = { c with entang_ab1_color := strtoul0 v % 65536 } := by
  unfold applyKV
  rw [if_neg (by decide)]
  rw [if_neg (by decide)]
  rw [if_neg (by decide)]
  rw [if_neg (by decide)]
  rw [if_neg (by decide)]
  rw [if_neg (by decide)]
  rw [if_neg (by decide)]
  rw [if_pos rfl]

/-- The `entang_ab2_color` branch of the dispatch. -/
theorem applyKV_entang_ab2_color (c : DiceConfig) (v : List Char) :
    applyKV c "entang_ab2_color".data v = { c with entang_ab2_color := strtoul0 v % 65536 } := by
  unfold applyKV
  rw [if_neg (by decide)]
  rw [if_neg (by decide)]
  rw [if_neg (by decide)]
  rw [if_neg (by decide)]
  rw [if_neg (by decide)]
  rw [if_neg (by decide)]
  rw [if_neg (by decide)]
  rw [if_neg (by decide)]
  rw [if_pos rfl]

/-- The `rssiLimit` branch of the dispatch. -/
theorem applyKV_rssiLimit (c : DiceConfig) (v : List Char) :
    applyKV c "rssiLimit".data v = { c with rssiLimit := if 128 ≤ atoiInt v % 256 then atoiInt v % 256 - 256 else atoiInt v % 256 } := by
  unfold applyKV
  rw [if_neg (by decide)]
  rw [if_neg (by decide)]
  rw [if_neg (by decide)]
  rw [if_neg (by decide)]
  rw [if_neg (by decide)]
  rw [if_neg (by decide)]
  rw [if_neg (by decide)]
  rw [if_neg (by decide)]
  rw [if_neg (by decide)]
  rw [if_pos rfl]

/-- The `isSMD` branch of the dispatch. -/
theorem applyKV_isSMD (c : DiceConfig) (v : List Char) :
    applyKV c "isSMD".data v = { c with isSMD := parseBool v } := by
  unfold applyKV
  rw [if_neg (by decide)]
  rw [if_neg (by decide)]
  rw [if_neg (by decide)]
  rw [if_neg (by decide)]
  rw [if_neg (by decide)]
  rw [if_neg (by decide)]
  rw [if_neg (by decide)]
  rw [if_neg (by decide)]
  rw [if_neg (by decide)]
  rw [if_neg (by decide)]
  rw [if_pos rfl]

/-- The `isNano` branch of the dispatch. -/
theorem applyKV_isNano (c : DiceConfig) (v : List Char) :
    applyKV c "isNano".data v = { c with isNano := parseBool v } := by
  unfold applyKV
  rw [if_neg (by decide)]
  rw [if_neg (by decide)]
  rw [if_neg (by decide)]
  rw [if_neg (by decide)]
  rw [if_neg (by decide)]
  rw [if_neg (by decide)]
  rw [if_neg (by decide)]
  rw [if_neg (by decide)]
  rw [if_neg (by decide)]
  rw [if_neg (by decide)]
  rw [if_neg (by decide)]
  rw [if_pos rfl]

/-- The `alwaysSeven` branch of the dispatch. -/
theorem applyKV_alwaysSeven (c : DiceConfig) (v : List Char) :
    applyKV c "alwaysSeven".data v = { c with alwaysSeven := parseBool v } := by
  unfold applyKV
  rw [if_neg (by decide)]
  rw [if_neg (by decide)]
  rw [if_neg (by decide)]
  rw [if_neg (by decide)]
  rw [if_neg (by decide)]
  rw [if_neg (by decide)]
  rw [if_neg (by decide)]
  rw [if_neg (by decide)]
  rw [if_neg (by decide)]
  rw [if_neg (by decide)]
  rw [if_neg (by decide)]
  rw [if_neg (by decide)]
  rw [if_pos rfl]

/-- The `randomSwitchPoint` branch of the dispatch. -/
theorem applyKV_randomSwitchPoint (c : DiceConfig) (v : List Char) :
    applyKV c "randomSwitchPoint".data v = { c with randomSwitchPoint := (atoiInt v % 256).toNat } := by
  unfold applyKV
  rw [if_neg (by decide)]
  rw [if_neg (by decide)]
  rw [if_neg (by decide)]
  rw [if_neg (by decide)]
  rw [if_neg (by decide)]
  rw [if_neg (by decide)]
  rw [if_neg (by decide)]
  rw [if_neg (by decide)]
  rw [if_neg (by decide)]
  rw [if_neg (by decide)]
  rw [if_neg (by decide)]
  rw [if_neg (by decide)]
  rw [if_neg (by decide)]
  rw [if_pos rfl]

/-- The `tumbleConstant` branch of the dispatch. -/
theorem applyKV_tumbleConstant (c : DiceConfig) (v : List Char) :
    applyKV c "tumbleConstant".data v = { c with tumbleConstant := atofRat v } := by
  unfold applyKV
  rw [if_neg (by decide)]
  rw [if_neg (by decide)]
  rw [if_neg (by decide)]
  rw [if_neg (by decide)]
  rw [if_neg (by decide)]
  rw [if_neg (by decide)]
  rw [if_neg (by decide)]
  rw [if_neg (by decide)]
  rw [if_neg (by decide)]
  rw [if_neg (by decide)]
  rw [if_neg (by decide)]
  rw [if_neg (by decide)]
  rw [if_neg (by decide)]
  rw [if_neg (by decide)]
  rw [if_pos rfl]

/-- The `deepSleepTimeout` branch of the dispatch. -/
theorem applyKV_deepSleepTimeout (c : DiceConfig) (v : List Char) :
    applyKV c "deepSleepTimeout".data v = { c with deepSleepTimeout := strtoul0 v } := by
  unfold applyKV
  rw [if_neg (by decide)]
  rw [if_neg (by decide)]
  rw [if_neg (by decide)]
  rw [if_neg (by decide)]
  rw [if_neg (by decide)]
  rw [if_neg (by decide)]
  rw [if_neg (by decide)]
  rw [if_neg (by decide)]
  rw [if_neg (by decide)]
  rw [if_neg (by decide)]
  rw [if_neg (by decide)]
  rw [if_neg (by decide)]
  rw [if_neg (by decide)]
  rw [if_neg (by decide)]
  rw [if_neg (by decide)]
  rw [if_pos rfl]

/-- The `checksum` branch of the dispatch. -/
theorem applyKV_checksum (c : DiceConfig) (v : List Char) :
    applyKV c "checksum".data v = { c with checksum := (atoiInt v % 256).toNat } := by
  unfold applyKV
  rw [if_neg (by decide)]
  rw [if_neg (by decide)]
  rw [if_neg (by decide)]
  rw [if_neg (by decide)]
  rw [if_neg (by decide)]
  rw [if_neg (by decide)]
  rw [if_neg (by decide)]
  rw [if_neg (by decide)]
  rw [if_neg (by decide)]
  rw [if_neg (by decide)]
  rw [if_neg (by decide)]
  rw [if_neg (by decide)]
  rw [if_neg (by decide)]
  rw [if_neg (by decide)]
  rw [if_neg (by decide)]
  rw [if_neg (by decide)]
  rw [if_pos rfl]

/-- Signed decimal renderings contain no whitespace. -/
theorem intRepr_all_nonspace (i : Int) : ∀ c ∈ intRepr i, csIsSpace c = false := by
  intro c hc
  unfold intRepr at hc
  by_cases hi : i < 0
  · rw [if_pos hi] at hc
    rcases List.mem_cons.mp hc with rfl | hm
    · decide
    · exact natRepr_all_nonspace _ c hm
  · rw [if_neg hi] at hc
    exact natRepr_all_nonspace _ c hc

/-- The two-digit fraction field contains no whitespace. -/
theorem pad2_all_nonspace (k : Nat) : ∀ c ∈ pad2 k, csIsSpace c = false := by
  intro c hc
  unfold pad2 at hc
  by_cases hk : k < 10
  · rw [if_pos hk] at hc
    rcases List.mem_cons.mp hc with rfl | hm
    · decide
    · exact natRepr_all_nonspace _ c hm
  · rw [if_neg hk] at hc
    exact natRepr_all_nonspace _ c hc

/-- Unsigned `%.2f` renderings contain no whitespace. -/
theorem fmt2n_all_nonspace (m : Nat) : ∀ c ∈ fmt2n m, csIsSpace c = false := by
  intro c hc
  unfold fmt2n at hc
  rcases List.mem_append.mp hc with hm | hm
  · exact natRepr_all_nonspace _ c hm
  · rcases List.mem_cons.mp hm with rfl | hm2
    · decide
    · exact pad2_all_nonspace _ c hm2

/-- `%.2f` renderings contain no whitespace. -/
theorem fmt2_all_nonspace (q : Rat) : ∀ c ∈ fmt2 q, csIsSpace c = false := by
  intro c hc
  unfold fmt2 at hc
  by_cases hq : q < 0
  · rw [if_pos hq] at hc
    rcases List.mem_cons.mp hc with rfl | hm
    · decide
    · exact fmt2n_all_nonspace _ c hm
  · rw [if_neg hq] at hc
    exact fmt2n_all_nonspace _ c hc

/-- Boolean renderings contain no whitespace. -/
theorem boolStr_all_nonspace (b : Bool) : ∀ c ∈ boolStr b, csIsSpace c = false := by
  cases b <;> decide

/-- MAC renderings contain no whitespace. -/
theorem macToString_all_nonspace (m : List Nat) :
    ∀ c ∈ macToString m, csIsSpace c = false := by
  have hx : ∀ (b : Nat), ∀ ch ∈ hex2 b, csIsSpace ch = false := by
    intro b ch hch
    rcases hex2_mem b ch hch with ⟨d, hd, rfl⟩
    exact (hexDigitChar_class d hd).2.1
  unfold macToString
  simp only [List.append_assoc, List.cons_append]
  refine List.forall_mem_append.mpr ⟨hx _, ?_⟩
  refine List.forall_mem_cons.mpr ⟨by decide, ?_⟩
  refine List.forall_mem_append.mpr ⟨hx _, ?_⟩
  refine List.forall_mem_cons.mpr ⟨by decide, ?_⟩
  refine List.forall_mem_append.mpr ⟨hx _, ?_⟩
  refine List.forall_mem_cons.mpr ⟨by decide, ?_⟩
  refine List.forall_mem_append.mpr ⟨hx _, ?_⟩
  refine List.forall_mem_cons.mpr ⟨by decide, ?_⟩
  refine List.forall_mem_append.mpr ⟨hx _, ?_⟩
  refine List.forall_mem_cons.mpr ⟨by decide, ?_⟩
  exact hx _

/-- The boolean sub-parser reads the boolean rendering back. -/
theorem parseBool_boolStr (b : Bool) : parseBool (boolStr b) = b := by
  cases b <;> decide

/-- The `diceId=` line stores the (15-character-truncated) value. -/
theorem applyLine_line_diceId (c : DiceConfig) (v : List Char)
    (hv1 : ((v.head?.map csIsSpace).getD false) = false)
    (hv2 : ((v.getLast?.map csIsSpace).getD false) = false) :
    applyLine c ("diceId=".data ++ v) = { c with diceId := v.take 15 } := by
  rw [show ("diceId=".data ++ v) = ("diceId".data ++ '=' :: v) from rfl,
    applyLine_kv c _ _ (by decide) (by decide) (by decide) (by decide) hv1 hv2,
    applyKV_diceId]

/-- The `deviceA_mac=` line reads the printed MAC back. -/
theorem applyLine_line_deviceA_mac (c : DiceConfig) (m : List Nat)
    (hlen : m.length = 6) (hb : ∀ x ∈ m, x < 256) :
    applyLine c ("deviceA_mac=".data ++ macToString m) = { c with deviceA_mac := m } := by
  rw [show ("deviceA_mac=".data ++ macToString m) = ("deviceA_mac".data ++ '=' :: macToString m) from rfl,
    applyLine_kv c _ _ (by decide) (by decide) (by decide) (by decide)
      (head_getD_false_of_all _ _ (macToString_all_nonspace m))
      (getLast_getD_false_of_all _ _ (macToString_all_nonspace m)),
    applyKV_deviceA_mac c _ m (parseMac_roundtrip m hlen hb)]

/-- The `deviceB1_mac=` line reads the printed MAC back. -/
theorem applyLine_line_deviceB1_mac (c : DiceConfig) (m : List Nat)
    (hlen : m.length = 6) (hb : ∀ x ∈ m, x < 256) :
    applyLine c ("deviceB1_mac=".data ++ macToString m) = { c with deviceB1_mac := m } := by
  rw [show ("deviceB1_mac=".data ++ macToString m) = ("deviceB1_mac".data ++ '=' :: macToString m) from rfl,
    applyLine_kv c _ _ (by decide) (by decide) (by decide) (by decide)
      (head_getD_false_of_all _ _ (macToString_all_nonspace m))
      (getLast_getD_false_of_all _ _ (macToString_all_nonspace m)),
    applyKV_deviceB1_mac c _ m (parseMac_roundtrip m hlen hb)]

/-- The `deviceB2_mac=` line reads the printed MAC back. -/
theorem applyLine_line_deviceB2_mac (c : DiceConfig) (m : List Nat)
    (hlen : m.length = 6) (hb : ∀ x ∈ m, x < 256) :
    applyLine c ("deviceB2_mac=".data ++ macToString m) = { c with deviceB2_mac := m } := by
  rw [show ("deviceB2_mac=".data ++ macToString m) = ("deviceB2_mac".data ++ '=' :: macToString m) from rfl,
    applyLine_kv c _ _ (by decide) (by decide) (by decide) (by decide)
      (head_getD_false_of_all _ _ (macToString_all_nonspace m))
      (getLast_getD_false_of_all _ _ (macToString_all_nonspace m)),
    applyKV_deviceB2_mac c _ m (parseMac_roundtrip m hlen hb)]

/-- The `x_background=` line reads the printed 16-bit value back. -/
theorem applyLine_line_x_background (c : DiceConfig) (n : Nat) (h : n < 65536) :
    applyLine c ("x_background=".data ++ natRepr n) = { c with x_background := n } := by
  rw [show ("x_background=".data ++ natRepr n) = ("x_background".data ++ '=' :: natRepr n) from rfl,
    applyLine_kv c _ _ (by decide) (by decide) (by decide) (by decide)
      (head_getD_false_of_all _ _ (natRepr_all_nonspace n))
      (getLast_getD_false_of_all _ _ (natRepr_all_nonspace n)),
    applyKV_x_background, strtoul0_natRepr n (by omega), Nat.mod_eq_of_lt h]

/-- The `y_background=` line reads the printed 16-bit value back. -/
theorem applyLine_line_y_background (c : DiceConfig) (n : Nat) (h : n < 65536) :
    applyLine c ("y_background=".data ++ natRepr n) = { c with y_background := n } := by
  rw [show ("y_background=".data ++ natRepr n) = ("y_background".data ++ '=' :: natRepr n) from rfl,
    applyLine_kv c _ _ (by decide) (by decide) (by decide) (by decide)
      (head_getD_false_of_all _ _ (natRepr_all_nonspace n))
      (getLast_getD_false_of_all _ _ (natRepr_all_nonspace n)),
    applyKV_y_background, strtoul0_natRepr n (by omega), Nat.mod_eq_of_lt h]

/-- The `z_background=` line reads the printed 16-bit value back. -/
theorem applyLine_line_z_background (c : DiceConfig) (n : Nat) (h : n < 65536) :
    applyLine c ("z_background=".data ++ natRepr n) = { c with z_background := n } := by
  rw [show ("z_background=".data ++ natRepr n) = ("z_background".data ++ '=' :: natRepr n) from rfl,
    applyLine_kv c _ _ (by decide) (by decide) (by decide) (by decide)
      (head_getD_false_of_all _ _ (natRepr_all_nonspace n))
      (getLast_getD_false_of_all _ _ (natRepr_all_nonspace n)),
    applyKV_z_background, strtoul0_natRepr n (by omega), Nat.mod_eq_of_lt h]

/-- The `entang_ab1_color=` line reads the printed 16-bit value back. -/
theorem applyLine_line_entang_ab1_color (c : DiceConfig) (n : Nat) (h : n < 65536) :
    applyLine c ("entang_ab1_color=".data ++ natRepr n) = { c with entang_ab1_color := n } := by
  rw [show ("entang_ab1_color=".data ++ natRepr n) = ("entang_ab1_color".data ++ '=' :: natRepr n) from rfl,
    applyLine_kv c _ _ (by decide) (by decide) (by decide) (by decide)
      (head_getD_false_of_all _ _ (natRepr_all_nonspace n))
      (getLast_getD_false_of_all _ _ (natRepr_all_nonspace n)),
    applyKV_entang_ab1_color, strtoul0_natRepr n (by omega), Nat.mod_eq_of_lt h]

/-- The `entang_ab2_color=` line reads the printed 16-bit value back. -/
theorem applyLine_line_entang_ab2_color (c : DiceConfig) (n : Nat) (h : n < 65536) :
    applyLine c ("entang_ab2_color=".data ++ natRepr n) = { c with entang_ab2_color := n } := by
  rw [show ("entang_ab2_color=".data ++ natRepr n) = ("entang_ab2_color".data ++ '=' :: natRepr n) from rfl,
    applyLine_kv c _ _ (by decide) (by decide) (by decide) (by decide)
      (head_getD_false_of_all _ _ (natRepr_all_nonspace n))
      (getLast_getD_false_of_all _ _ (natRepr_all_nonspace n)),
    applyKV_entang_ab2_color, strtoul0_natRepr n (by omega), Nat.mod_eq_of_lt h]

/-- The `rssiLimit=` line reads the printed signed 8-bit value back. -/
theorem applyLine_line_rssiLimit (c : DiceConfig) (i : Int)
    (h1 : -128 ≤ i) (h2 : i < 128) :
    applyLine c ("rssiLimit=".data ++ intRepr i) = { c with rssiLimit := i } := by
  rw [show ("rssiLimit=".data ++ intRepr i) = ("rssiLimit".data ++ '=' :: intRepr i) from rfl,
    applyLine_kv c _ _ (by decide) (by decide) (by decide) (by decide)
      (head_getD_false_of_all _ _ (intRepr_all_nonspace i))
      (getLast_getD_false_of_all _ _ (intRepr_all_nonspace i)),
    applyKV_rssiLimit, atoiInt_intRepr]
  have hfix : (if (128 : Int) ≤ i % 256 then i % 256 - 256 else i % 256) = i := by
    split_ifs with hs <;> omega
  rw [hfix]

/-- The `isSMD=` line reads the printed boolean back. -/
theorem applyLine_line_isSMD (c : DiceConfig) (b : Bool) :
    applyLine c ("isSMD=".data ++ boolStr b) = { c with isSMD := b } := by
  rw [show ("isSMD=".data ++ boolStr b) = ("isSMD".data ++ '=' :: boolStr b) from rfl,
    applyLine_kv c _ _ (by decide) (by decide) (by decide) (by decide)
      (head_getD_false_of_all _ _ (boolStr_all_nonspace b))
      (getLast_getD_false_of_all _ _ (boolStr_all_nonspace b)),
    applyKV_isSMD, parseBool_boolStr]

/-- The `isNano=` line reads the printed boolean back. -/
theorem applyLine_line_isNano (c : DiceConfig) (b : Bool) :
    applyLine c ("isNano=".data ++ boolStr b) = { c with isNano := b } := by
  rw [show ("isNano=".data ++ boolStr b) = ("isNano".data ++ '=' :: boolStr b) from rfl,
    applyLine_kv c _ _ (by decide) (by decide) (by decide) (by decide)
      (head_getD_false_of_all _ _ (boolStr_all_nonspace b))
      (getLast_getD_false_of_all _ _ (boolStr_all_nonspace b)),
    applyKV_isNano, parseBool_boolStr]

/-- The `alwaysSeven=` line reads the printed boolean back. -/
theorem applyLine_line_alwaysSeven (c : DiceConfig) (b : Bool) :
    applyLine c ("alwaysSeven=".data ++ boolStr b) = { c with alwaysSeven := b } := by
  rw [show ("alwaysSeven=".data ++ boolStr b) = ("alwaysSeven".data ++ '=' :: boolStr b) from rfl,
    applyLine_kv c _ _ (by decide) (by decide) (by decide) (by decide)
      (head_getD_false_of_all _ _ (boolStr_all_nonspace b))
      (getLast_getD_false_of_all _ _ (boolStr_all_nonspace b)),
    applyKV_alwaysSeven, parseBool_boolStr]

/-- The `randomSwitchPoint=` line reads the printed byte value back. -/
theorem applyLine_line_randomSwitchPoint (c : DiceConfig) (n : Nat) (h : n < 256) :
    applyLine c ("randomSwitchPoint=".data ++ natRepr n) =
      { c with randomSwitchPoint := n } := by
  rw [show ("randomSwitchPoint=".data ++ natRepr n) =
      ("randomSwitchPoint".data ++ '=' :: natRepr n) from rfl,
    applyLine_kv c _ _ (by decide) (by decide) (by decide) (by decide)
      (head_getD_false_of_all _ _ (natRepr_all_nonspace n))
      (getLast_getD_false_of_all _ _ (natRepr_all_nonspace n)),
    applyKV_randomSwitchPoint, atoiInt_natRepr, byte_cast_id n h]

/-- The `tumbleConstant=` line reads the `%.2f` rendering back as the
two-decimal rounding of the value. -/
theorem applyLine_line_tumbleConstant (c : DiceConfig) (q : Rat) :
    applyLine c ("tumbleConstant=".data ++ fmt2 q) =
      { c with tumbleConstant := round2 q } := by
  rw [show ("tumbleConstant=".data ++ fmt2 q) =
      ("tumbleConstant".data ++ '=' :: fmt2 q) from rfl,
    applyLine_kv c _ _ (by decide) (by decide) (by decide) (by decide)
      (head_getD_false_of_all _ _ (fmt2_all_nonspace q))
      (getLast_getD_false_of_all _ _ (fmt2_all_nonspace q)),
    applyKV_tumbleConstant, atof_fmt2]

/-- The `deepSleepTimeout=` line reads the printed 32-bit value back. -/
theorem applyLine_line_deepSleepTimeout (c : DiceConfig) (n : Nat)
    (h : n < 4294967296) :
    applyLine c ("deepSleepTimeout=".data ++ natRepr n) =
      { c with deepSleepTimeout := n } := by
  rw [show ("deepSleepTimeout=".data ++ natRepr n) =
      ("deepSleepTimeout".data ++ '=' :: natRepr n) from rfl,
    applyLine_kv c _ _ (by decide) (by decide) (by decide) (by decide)
      (head_getD_false_of_all _ _ (natRepr_all_nonspace n))
      (getLast_getD_false_of_all _ _ (natRepr_all_nonspace n)),
    applyKV_deepSleepTimeout, strtoul0_natRepr n h]

/-- The `checksum=` line reads the printed byte value back. -/
theorem applyLine_line_checksum (c : DiceConfig) (n : Nat) (h : n < 256) :
    applyLine c ("checksum=".data ++ natRepr n) = { c with checksum := n } := by
  rw [show ("checksum=".data ++ natRepr n) =
      ("checksum".data ++ '=' :: natRepr n) from rfl,
    applyLine_kv c _ _ (by decide) (by decide) (by decide) (by decide)
      (head_getD_false_of_all _ _ (natRepr_all_nonspace n))
      (getLast_getD_false_of_all _ _ (natRepr_all_nonspace n)),
    applyKV_checksum, atoiInt_natRepr, byte_cast_id n h]

/-- A blank line leaves the record unchanged. -/
theorem applyLine_blank (c : DiceConfig) : applyLine c [] = c := rfl

/-- A comment line leaves the record unchanged. -/
theorem applyLine_header1 (c : DiceConfig) : applyLine c "# Dice Configuration File".data = c := rfl

/-- A comment line leaves the record unchanged. -/
theorem applyLine_header2 (c : DiceConfig) : applyLine c "# Auto-generated - Edit with care".data = c := rfl

/-- A comment line leaves the record unchanged. -/
theorem applyLine_header3 (c : DiceConfig) : applyLine c "# Device Identification".data = c := rfl

/-- A comment line leaves the record unchanged. -/
theorem applyLine_header4 (c : DiceConfig) : applyLine c "# Device MAC Addresses (format: AA:BB:CC:DD:EE:FF)".data = c := rfl

/-- A comment line leaves the record unchanged. -/
theorem applyLine_header5 (c : DiceConfig) : applyLine c "# Display Colors (16-bit RGB565 format)".data = c := rfl

/-- A comment line leaves the record unchanged. -/
theorem applyLine_header6 (c : DiceConfig) : applyLine c "# RSSI Settings".data = c := rfl

/-- A comment line leaves the record unchanged. -/
theorem applyLine_header7 (c : DiceConfig) : applyLine c "# Hardware Configuration".data = c := rfl

/-- A comment line leaves the record unchanged. -/
theorem applyLine_header8 (c : DiceConfig) : applyLine c "# Operational Parameters".data = c := rfl

/-- A comment line leaves the record unchanged. -/
theorem applyLine_header9 (c : DiceConfig) : applyLine c "# Checksum (auto-calculated)".data = c := rfl

/-- C7 amended: for every record whose fields respect their C widths and
whose deviceId carries no leading or trailing whitespace and no embedded
newline, decoding the text `encode` (the pure serializer of `save`)
produces yields a record equal to the original in every field except that
tumbleConstant becomes its two-decimal `%.2f` rounding — regardless of
the record state the parse starts from. -/
theorem c7_encode_decode_roundtrip (r prior : DiceConfig)
    (hid_len : r.diceId.length ≤ 15)
    (hid_head : ((r.diceId.head?.map csIsSpace).getD false) = false)
    (hid_last : ((r.diceId.getLast?.map csIsSpace).getD false) = false)
    (hid_nl : '\n' ∉ r.diceId)
    (hmA : r.deviceA_mac.length = 6) (hmA2 : ∀ x ∈ r.deviceA_mac, x < 256)
    (hmB1 : r.deviceB1_mac.length = 6) (hmB12 : ∀ x ∈ r.deviceB1_mac, x < 256)
    (hmB2 : r.deviceB2_mac.length = 6) (hmB22 : ∀ x ∈ r.deviceB2_mac, x < 256)
    (hx : r.x_background < 65536) (hy : r.y_background < 65536)
    (hz : r.z_background < 65536) (he1 : r.entang_ab1_color < 65536)
    (he2 : r.entang_ab2_color < 65536)
    (hr1 : -128 ≤ r.rssiLimit) (hr2 : r.rssiLimit < 128)
    (hrp : r.randomSwitchPoint < 256)
    (hdt : r.deepSleepTimeout < 4294967296)
    (hck : r.checksum < 256) :
    decodeLines prior (encodeLines r) =
      { r with tumbleConstant := round2 r.tumbleConstant } := by
  unfold encodeLines decodeLines
  rw [List.foldl_cons, applyLine_header1]
  rw [List.foldl_cons, applyLine_header2]
  rw [List.foldl_cons, applyLine_blank]
  rw [List.foldl_cons, applyLine_header3]
  rw [List.foldl_cons, applyLine_line_diceId _ _ hid_head hid_last]
  dsimp only
  rw [List.foldl_cons, applyLine_blank]
  rw [List.foldl_cons, applyLine_header4]
  rw [List.foldl_cons, applyLine_line_deviceA_mac _ _ hmA hmA2]
  dsimp only
  rw [List.foldl_cons, applyLine_line_deviceB1_mac _ _ hmB1 hmB12]
  dsimp only
  rw [List.foldl_cons, applyLine_line_deviceB2_mac _ _ hmB2 hmB22]
  dsimp only
  rw [List.foldl_cons, applyLine_blank]
  rw [List.foldl_cons, applyLine_header5]
  rw [List.foldl_cons, applyLine_line_x_background _ _ hx]
  dsimp only
  rw [List.foldl_cons, applyLine_line_y_background _ _ hy]
  dsimp only
  rw [List.foldl_cons, applyLine_line_z_background _ _ hz]
  dsimp only
  rw [List.foldl_cons, applyLine_line_entang_ab1_color _ _ he1]
  dsimp only
  rw [List.foldl_cons, applyLine_line_entang_ab2_color _ _ he2]
  dsimp only
  rw [List.foldl_cons, applyLine_blank]
  rw [List.foldl_cons, applyLine_header6]
  rw [List.foldl_cons, applyLine_line_rssiLimit _ _ hr1 hr2]
  dsimp only
  rw [List.foldl_cons, applyLine_blank]
  rw [List.foldl_cons, applyLine_header7]
  rw [List.foldl_cons, applyLine_line_isSMD]
  dsimp only
  rw [List.foldl_cons, applyLine_line_isNano]
  dsimp only
  rw [List.foldl_cons, applyLine_line_alwaysSeven]
  dsimp only
  rw [List.foldl_cons, applyLine_blank]
  rw [List.foldl_cons, applyLine_header8]
  rw [List.foldl_cons, applyLine_line_randomSwitchPoint _ _ hrp]
  dsimp only
  rw [List.foldl_cons, applyLine_line_tumbleConstant]
  dsimp only
  rw [List.foldl_cons, applyLine_line_deepSleepTimeout _ _ hdt]
  dsimp only
  rw [List.foldl_cons, applyLine_blank]
  rw [List.foldl_cons, applyLine_header9]
  rw [List.foldl_cons, applyLine_line_checksum _ _ hck]
  dsimp only
  rw [List.foldl_nil, List.take_of_length_le hid_len]

/-- Witness for C7's amended statement at the default record: the encode
then decode round trip reproduces it (its tumbleConstant 2.5 is already
two-decimal). -/
theorem c7_witness :
    decodeLines initDefaultConfig (encodeLines initDefaultConfig) =
      { initDefaultConfig with
          tumbleConstant := round2 initDefaultConfig.tumbleConstant } :=
  c7_encode_decode_roundtrip initDefaultConfig initDefaultConfig
    (by decide) (by decide) (by decide) (by decide) (by decide) (by decide)
    (by decide) (by decide) (by decide) (by decide) (by decide) (by decide)
    (by decide) (by decide) (by decide) (by decide) (by decide) (by decide)
    (by decide) (by decide)

/-- C7 counterexample: the claim ranges over every valid, fully-populated
record.  The record `rBadId` is valid (non-empty deviceId, in-range
fields, checksum 0) and fully populated, but its deviceId `" A"` starts
with a space, which the decoder's `trim` removes: the round trip returns
deviceId `"A"`, so the decoded record differs from the original in a
field other than tumbleConstant. -/
theorem c7_counterexample :
    validate enc25 rBadId = true ∧
      (decodeLines initDefaultConfig (encodeLines rBadId)).diceId ≠ rBadId.diceId := by
  constructor
  · apply (validate_eq_true_iff enc25 rBadId).mpr
    refine ⟨by decide, by decide, ?_, fun h => absurd rfl h⟩
    show (0 : Rat) < 5 / 2
    norm_num
  · have hbad : ∀ c : DiceConfig,
        applyLine c ("diceId=".data ++ rBadId.diceId) =
          { c with diceId := "A".data } := fun c => rfl
    unfold encodeLines decodeLines
    rw [List.foldl_cons, applyLine_header1]
    rw [List.foldl_cons, applyLine_header2]
    rw [List.foldl_cons, applyLine_blank]
    rw [List.foldl_cons, applyLine_header3]
    rw [List.foldl_cons, hbad]
    dsimp only
    rw [List.foldl_cons, applyLine_blank]
    rw [List.foldl_cons, applyLine_header4]
    rw [List.foldl_cons, applyLine_line_deviceA_mac _ _ (by decide) (by decide)]
    dsimp only
    rw [List.foldl_cons, applyLine_line_deviceB1_mac _ _ (by decide) (by decide)]
    dsimp only
    rw [List.foldl_cons, applyLine_line_deviceB2_mac _ _ (by decide) (by decide)]
    dsimp only
    rw [List.foldl_cons, applyLine_blank]
    rw [List.foldl_cons, applyLine_header5]
    rw [List.foldl_cons, applyLine_line_x_background _ _ (by decide)]
    dsimp only
    rw [List.foldl_cons, applyLine_line_y_background _ _ (by decide)]
    dsimp only
    rw [List.foldl_cons, applyLine_line_z_background _ _ (by decide)]
    dsimp only
    rw [List.foldl_cons, applyLine_line_entang_ab1_color _ _ (by decide)]
    dsimp only
    rw [List.foldl_cons, applyLine_line_entang_ab2_color _ _ (by decide)]
    dsimp only
    rw [List.foldl_cons, applyLine_blank]
    rw [List.foldl_cons, applyLine_header6]
    rw [List.foldl_cons, applyLine_line_rssiLimit _ _ (by decide) (by decide)]
    dsimp only
    rw [List.foldl_cons, applyLine_blank]
    rw [List.foldl_cons, applyLine_header7]
    rw [List.foldl_cons, applyLine_line_isSMD]
    dsimp only
    rw [List.foldl_cons, applyLine_line_isNano]
    dsimp only
    rw [List.foldl_cons, applyLine_line_alwaysSeven]
    dsimp only
    rw [List.foldl_cons, applyLine_blank]
    rw [List.foldl_cons, applyLine_header8]
    rw [List.foldl_cons, applyLine_line_randomSwitchPoint _ _ (by decide)]
    dsimp only
    rw [List.foldl_cons, applyLine_line_tumbleConstant]
    dsimp only
    rw [List.foldl_cons, applyLine_line_deepSleepTimeout _ _ (by decide)]
    dsimp only
    rw [List.foldl_cons, applyLine_blank]
    rw [List.foldl_cons, applyLine_header9]
    rw [List.foldl_cons, applyLine_line_checksum _ _ (by decide)]
    dsimp only
    rw [List.foldl_nil]
    decide

end DiceCM
